import Mathlib

/-!
Verification of the firewall-rule generator (`fw_rule_generator.py`).

The embedding models:
  * the network description (routers, subnets, links) and communications,
  * `generate_network_graph` (networkx `Graph`: `add_node` / `add_edge`,
    where `add_edge` silently creates missing endpoint nodes),
  * `nx.shortest_path` as an unweighted breadth-first search returning the
    hop sequence (membership of the endpoints is checked first, as networkx
    raises `NodeNotFound`; an unreachable target raises `NetworkXNoPath`),
  * `generate_filter_rule` / `generate_rule_string` / `init_rules` /
    `create_filter_rules`, with Python `dict`s as ordered association lists
    and Python exceptions as `Except String`,
  * the per-router file content produced by `write_filter_rules`
    (the filesystem side is out of scope; only the written text is modelled).

Integer identifiers, ports and prefix lengths are modelled as `Nat`
(`Nat.repr` matches Python's decimal formatting of nonnegative ints).
-/

/-- A router of the network description: `{id}`. -/
structure Router where
  id : Nat
deriving DecidableEq, Repr

/-- A subnet of the network description: `{id, address, prefix}`.
The prefix length field is called `pfx` here. -/
structure Subnet where
  id : Nat
  address : String
  pfx : Nat
deriving DecidableEq, Repr

/-- A link of the network description: `{routerId, subnetId, interfaceId, ip}`. -/
structure Link where
  routerId : Nat
  subnetId : Nat
  interfaceId : String
  ip : String
deriving DecidableEq, Repr

/-- The network description consumed by `FirewallRuleGenerator`. -/
structure NetworkDesc where
  routers : List Router
  subnets : List Subnet
  links : List Link
deriving DecidableEq, Repr

/-- One allowed communication. -/
structure Communication where
  sourceSubnetId : Nat
  targetSubnetId : Nat
  protocol : String
  sourcePortStart : Nat
  sourcePortEnd : Nat
  targetPortStart : Nat
  targetPortEnd : Nat
  direction : String
deriving DecidableEq, Repr

/-- `sId2sName`: subnet node name `"s<id>"`. -/
def sId2sName (subnet_id : Nat) : String :=
  "s" ++ Nat.repr subnet_id

/-- `rId2rName`: router node name `"r<id>"`. -/
def rId2rName (router_id : Nat) : String :=
  "r" ++ Nat.repr router_id

/-- The test `re.match(r"r\d+", name)`: the name starts with the letter `r`
followed by at least one decimal digit. -/
def isRouterName (s : String) : Bool :=
  match s.data with
  | 'r' :: c :: _ => c.isDigit
  | _ => false

/-- Python dict lookup `d[k]` as an association-list lookup
(first binding of the key wins; keys are unique in a Python dict). -/
def dictGet {α : Type} : List (String × α) → String → Option α
  | [], _ => none
  | (k', v') :: rest, k => if k' = k then some v' else dictGet rest k

/-- Python dict assignment `d[k] = v`: replace the binding in place if the
key is present (a Python dict keeps the original insertion position),
otherwise append the new binding at the end. -/
def dictSet {α : Type} : List (String × α) → String → α → List (String × α)
  | [], k, v => [(k, v)]
  | (k', v') :: rest, k, v =>
    if k' = k then (k, v) :: rest else (k', v') :: dictSet rest k v

/-- The keys of a Python dict, in insertion order. -/
def dictKeys {α : Type} (d : List (String × α)) : List String :=
  d.map (·.1)

/-- Python list indexing `l[i]` with an `Int` index: a negative index counts
from the end of the list; `none` models an `IndexError`. -/
def pyGet {α : Type} (l : List α) (i : Int) : Option α :=
  if 0 ≤ i then l.get? i.toNat
  else
    let j : Int := (l.length : Int) + i
    if 0 ≤ j then l.get? j.toNat else none

/-- The graph built by `generate_network_graph` (the used part of the
networkx `Graph` object):
  * `nodes`: node names in insertion order;
  * `subnetAttrs`: the `address`/`prefix` node attributes set by `add_node`
    for subnet nodes (newest binding first, as later writes override);
  * `edges`: the undirected edges, stored as the ordered pair in which
    `add_edge` received them (router name first, subnet name second);
  * `iface`: the per-router node attribute `graph.nodes[router][subnet] =
    {interfaceId, interfaceIp}` (newest binding first). -/
structure Graph where
  nodes : List String
  subnetAttrs : List (String × String × Nat)
  edges : List (String × String)
  iface : List ((String × String) × String × String)
deriving DecidableEq, Repr

/-- networkx `add_node`: a node already present is kept (attributes are
handled separately). -/
def addNode (g : Graph) (n : String) : Graph :=
  if n ∈ g.nodes then g else { g with nodes := g.nodes ++ [n] }

/-- Record the `address`/`prefix` attributes of a subnet node. -/
def setSubnetAttr (g : Graph) (n addr : String) (p : Nat) : Graph :=
  { g with subnetAttrs := (n, addr, p) :: g.subnetAttrs }

/-- Adjacency in an undirected edge list (either orientation). -/
def adjB (E : List (String × String)) (a b : String) : Bool :=
  E.any fun e => (e.1 == a && e.2 == b) || (e.1 == b && e.2 == a)

/-- Whether the undirected edge `{u, v}` is already present. -/
def hasEdge (g : Graph) (u v : String) : Bool :=
  adjB g.edges u v

/-- networkx `add_edge u v`: missing endpoint nodes are silently created,
then the edge is added (once; re-adding only refreshes attributes). -/
def addEdge (g : Graph) (u v : String) : Graph :=
  let g1 := addNode (addNode g u) v
  if hasEdge g1 u v then g1 else { g1 with edges := g1.edges ++ [(u, v)] }

/-- The assignment `graph.nodes[router][subnet] = {interfaceId, interfaceIp}`. -/
def setIface (g : Graph) (r s ifId ifIp : String) : Graph :=
  { g with iface := ((r, s), ifId, ifIp) :: g.iface }

/-- One iteration of the router loop of `generate_network_graph`:
`graph.add_node("r{id}", id=router_id)`. -/
def routerStep (g : Graph) (r : Router) : Graph :=
  addNode g (rId2rName r.id)

/-- One iteration of the subnet loop of `generate_network_graph`:
`graph.add_node(sId2sName(id), id=…, address=…, prefix=…)`. -/
def subnetStep (g : Graph) (s : Subnet) : Graph :=
  setSubnetAttr (addNode g (sId2sName s.id)) (sId2sName s.id) s.address s.pfx

/-- One iteration of the link loop of `generate_network_graph`:
`graph.add_edge(router_name, subnet_name, …)` followed by
`graph.nodes[router_name][subnet_name] = {interfaceId, interfaceIp}`. -/
def linkStep (g : Graph) (l : Link) : Graph :=
  setIface (addEdge g (rId2rName l.routerId) (sId2sName l.subnetId))
    (rId2rName l.routerId) (sId2sName l.subnetId) l.interfaceId l.ip

/-- `FirewallRuleGenerator.generate_network_graph`: add one node per router,
one node (with `address`/`prefix` attributes) per subnet, then for each link an
edge between the named router and subnet nodes plus the router-node
interface attribute.  There is no validation: a link naming an undeclared
router or subnet id just makes `add_edge` create that node. -/
def generate_network_graph (nd : NetworkDesc) : Graph :=
  let g0 : Graph := ⟨[], [], [], []⟩
  let g1 := nd.routers.foldl routerStep g0
  let g2 := nd.subnets.foldl subnetStep g1
  nd.links.foldl linkStep g2

/-- Lookup of `graph.nodes[router][subnet]` (interface id and ip). -/
def lookupIface (g : Graph) (r s : String) : Option (String × String) :=
  (g.iface.find? fun e => e.1.1 == r && e.1.2 == s).map (·.2)

/-- Lookup of `graph.nodes[subnet]['address']` and `['prefix']`. -/
def subnetAddr (g : Graph) (n : String) : Option (String × Nat) :=
  (g.subnetAttrs.find? fun e => e.1 == n).map (·.2)

/-- The neighbors of `v` in the undirected edge list. -/
def neighborsOf (E : List (String × String)) (v : String) : List String :=
  E.filterMap fun e =>
    if e.1 == v then some e.2 else if e.2 == v then some e.1 else none

/-- Consecutive elements of the list are adjacent. -/
def chainB (E : List (String × String)) : List String → Bool
  | [] => true
  | [_] => true
  | a :: b :: rest => adjB E a b && chainB E (b :: rest)

/-- A path of the graph from `src` to `dst`: nonempty, with the required
endpoints, consecutive elements adjacent. -/
def validPath (E : List (String × String)) (src dst : String) (p : List String) : Prop :=
  p.head? = some src ∧ p.getLast? = some dst ∧ chainB E p = true

/-- Breadth-first search over the edge list.  Queue entries are reversed
paths (head = frontier node); `visited` collects every enqueued node.
`fuel` bounds the number of dequeues (the caller passes enough for the
whole graph). -/
def bfsAux (E : List (String × String)) (target : String) :
    Nat → List (List String) → List String → Option (List String)
  | 0, _, _ => none
  | _ + 1, [], _ => none
  | fuel + 1, rp :: queue, visited =>
    match rp with
    | [] => bfsAux E target fuel queue visited
    | v :: _ =>
      if v = target then some rp.reverse
      else
        let frontier := (neighborsOf E v).filter fun w => !(visited.contains w)
        bfsAux E target fuel (queue ++ frontier.map fun w => w :: rp) (visited ++ frontier)

/-- `nx.shortest_path(graph, source, target)` without weights: breadth-first
search.  networkx raises `NodeNotFound` when an endpoint is not a node of
the graph and `NetworkXNoPath` when the target is unreachable. -/
def shortest_path (g : Graph) (src dst : String) : Except String (List String) :=
  if src ∈ g.nodes then
    if dst ∈ g.nodes then
      match bfsAux g.edges dst (2 * g.edges.length + 2) [[src]] [src] with
      | some p => .ok p
      | none => .error "NetworkXNoPath"
    else .error "NodeNotFound"
  else .error "NodeNotFound"

/-- The trailing fields every rule shares:
`-m state --state {state} -j ACCEPT`. -/
def stateClause (state : String) : List String :=
  ["-m", "state", "--state", state, "-j", "ACCEPT"]

/-- The whitespace-separated fields of the rule string built by
`generate_rule_string`: the ICMP branch omits the `--sport`/`--dport`
clauses, the other branch carries both port ranges. -/
def ruleTokens (protocol : String) (sport_start sport_end dport_start dport_end : Nat)
    (src_ip : String) (src_pfx : Nat) (dst_ip : String) (dst_pfx : Nat)
    (ingress_interface egress_interface state : String) : List String :=
  if protocol = "icmp" then
    ["-A", "FORWARD", "-p", protocol,
     "-s", src_ip ++ "/" ++ Nat.repr src_pfx,
     "-d", dst_ip ++ "/" ++ Nat.repr dst_pfx,
     "-i", ingress_interface, "-o", egress_interface] ++ stateClause state
  else
    ["-A", "FORWARD", "-p", protocol,
     "--sport", Nat.repr sport_start ++ ":" ++ Nat.repr sport_end,
     "--dport", Nat.repr dport_start ++ ":" ++ Nat.repr dport_end,
     "-s", src_ip ++ "/" ++ Nat.repr src_pfx,
     "-d", dst_ip ++ "/" ++ Nat.repr dst_pfx,
     "-i", ingress_interface, "-o", egress_interface] ++ stateClause state

/-- Concatenate every token followed by one space.  This renders exactly the
source's format template, which terminates every field — including the last
one — with a space character. -/
def renderTokens : List String → String
  | [] => ""
  | t :: ts => t ++ " " ++ renderTokens ts

/-- `FirewallRuleGenerator.generate_rule_string`: the iptables rule text.
Rendering `ruleTokens` with a space after each field yields character for
character the Python template
`'-A FORWARD ' '-p {p} ' … '-j ACCEPT '` of either branch. -/
def generate_rule_string (protocol : String)
    (sport_start sport_end dport_start dport_end : Nat)
    (src_ip : String) (src_pfx : Nat) (dst_ip : String) (dst_pfx : Nat)
    (ingress_interface egress_interface state : String) : String :=
  renderTokens (ruleTokens protocol sport_start sport_end dport_start dport_end
    src_ip src_pfx dst_ip dst_pfx ingress_interface egress_interface state)

/-- One router hop of the loop inside `generate_filter_rule` (the body of
the `if re.match(r"r\d+", path[i])` branch).  Reads `path[i-1]`, `path[i+1]`
(`pyGet`, Python semantics), the subnet attributes of the communication's
source/target subnets and the router's interface attributes; each failing
access is the corresponding Python exception.  In the source the rules list
of the router is assigned `[]` and then appended to; the net effect
`filter_rules[router] = [forward]` or `[forward, reverse]` is modelled
directly. -/
def hopRules (g : Graph) (c : Communication) (path : List String) (i : Nat)
    (routerName : String) (acc : List (String × List String)) :
    Except String (List (String × List String)) :=
  match pyGet path ((i : Int) - 1) with
  | none => .error "IndexError"
  | some last_hop =>
    match pyGet path ((i : Int) + 1) with
    | none => .error "IndexError"
    | some next_hop =>
      match subnetAddr g (sId2sName c.sourceSubnetId) with
      | none => .error "KeyError"
      | some src =>
        match subnetAddr g (sId2sName c.targetSubnetId) with
        | none => .error "KeyError"
        | some dst =>
          match lookupIface g routerName last_hop with
          | none => .error "KeyError"
          | some ingress =>
            match lookupIface g routerName next_hop with
            | none => .error "KeyError"
            | some egress =>
              if c.direction = "bidirectional" then
                .ok (dictSet acc routerName
                  [generate_rule_string c.protocol
                     c.sourcePortStart c.sourcePortEnd c.targetPortStart c.targetPortEnd
                     src.1 src.2 dst.1 dst.2 ingress.1 egress.1 "NEW,ESTABLISHED",
                   generate_rule_string c.protocol
                     c.targetPortStart c.targetPortEnd c.sourcePortStart c.sourcePortEnd
                     dst.1 dst.2 src.1 src.2 egress.1 ingress.1
                     (if c.protocol = "icmp" then "NEW,ESTABLISHED" else "ESTABLISHED")])
              else
                .ok (dictSet acc routerName
                  [generate_rule_string c.protocol
                     c.sourcePortStart c.sourcePortEnd c.targetPortStart c.targetPortEnd
                     src.1 src.2 dst.1 dst.2 ingress.1 egress.1 "NEW,ESTABLISHED"])

/-- The loop `for i in range(len(path))` of `generate_filter_rule`,
written as recursion over the suffix of `path` that starts at index `i`
(the second list argument). -/
def genHops (g : Graph) (c : Communication) (path : List String) :
    List String → Nat → List (String × List String) →
    Except String (List (String × List String))
  | [], _, acc => .ok acc
  | node :: rest, i, acc =>
    if isRouterName node then
      match hopRules g c path i node acc with
      | .error e => .error e
      | .ok acc' => genHops g c path rest (i + 1) acc'
    else genHops g c path rest (i + 1) acc

/-- `FirewallRuleGenerator.generate_filter_rule`: resolve the shortest path
between the communication's subnets, then produce the per-router rules dict. -/
def generate_filter_rule (g : Graph) (c : Communication) :
    Except String (List (String × List String)) :=
  match shortest_path g (sId2sName c.sourceSubnetId) (sId2sName c.targetSubnetId) with
  | .error e => .error e
  | .ok path => genHops g c path path 0 []

/-- The `* nat` table contents set by `init_rules`. -/
def natInitRules : List String :=
  [":OUTPUT ACCEPT [0:0]", ":PREROUTING ACCEPT [0:0]", ":POSTROUTING ACCEPT [0:0]"]

/-- The `* filter` table contents set by `init_rules`. -/
def filterInitRules : List String :=
  [":INPUT DROP [0:0]", ":OUTPUT DROP [0:0]", ":FORWARD DROP [0:0]"]

/-- The fresh two-table dict every router gets in `init_rules`. -/
def initRouterTables : List (String × List String) :=
  [("* nat", natInitRules), ("* filter", filterInitRules)]

/-- `FirewallRuleGenerator.init_rules`: the initial `filter_rules` dict,
one entry per declared router. -/
def init_rules (nd : NetworkDesc) : List (String × List (String × List String)) :=
  nd.routers.foldl (fun d r => dictSet d (rId2rName r.id) initRouterTables) []

/-- One step of the accumulation loop in `create_filter_rules`:
`self.filter_rules[router_name]['* filter'] += rules_array` (a missing
router or table key is a Python `KeyError`). -/
def appendRouterRules (st : List (String × List (String × List String)))
    (rn : String) (rules : List String) :
    Except String (List (String × List (String × List String))) :=
  match dictGet st rn with
  | none => .error "KeyError"
  | some tabs =>
    match dictGet tabs "* filter" with
    | none => .error "KeyError"
    | some cur => .ok (dictSet st rn (dictSet tabs "* filter" (cur ++ rules)))

/-- The inner loop of `create_filter_rules` over one communication's rules
dict. -/
def applyCommRules (st : List (String × List (String × List String))) :
    List (String × List String) →
    Except String (List (String × List (String × List String)))
  | [] => .ok st
  | (rn, rules) :: rest =>
    match appendRouterRules st rn rules with
    | .error e => .error e
    | .ok st' => applyCommRules st' rest

/-- `FirewallRuleGenerator.create_filter_rules`: process the communications
in order, appending each one's rules to the routers' `* filter` lists. -/
def create_filter_rules (g : Graph) :
    List Communication → List (String × List (String × List String)) →
    Except String (List (String × List (String × List String)))
  | [], st => .ok st
  | c :: cs, st =>
    match generate_filter_rule g c with
    | .error e => .error e
    | .ok m =>
      match applyCommRules st m with
      | .error e => .error e
      | .ok st' => create_filter_rules g cs st'

/-- Each rule on its own line (`output_file.write(rule + "\n")`). -/
def renderLines : List String → String
  | [] => ""
  | r :: rs => r ++ "\n" ++ renderLines rs

/-- The text `write_filter_rules` writes into one router's file: for every
table (in dict order) the table name line, the rule lines, then
`'\nCOMMIT\n\n'`. -/
def write_filter_rules_content : List (String × List String) → String
  | [] => ""
  | (tableName, rules) :: rest =>
    tableName ++ "\n" ++ renderLines rules ++ "\nCOMMIT\n\n" ++
      write_filter_rules_content rest

/-- Modelled from the spec: fields of a rule line joined by single spaces
(§6 rule line grammar). -/
def sepBySpace : List String → String
  | [] => ""
  | [t] => t
  | t :: ts => t ++ " " ++ sepBySpace ts

/-- Modelled from the spec: the fields of the §6 rule line grammar
`-A FORWARD -p {protocol} --sport {sStart}:{sEnd} --dport {dStart}:{dEnd}
-s {srcIp}/{srcPrefix} -d {dstIp}/{dstPrefix} -i {ingressIf} -o {egressIf}
-m state --state {state} -j ACCEPT`; per §6 the ICMP line omits the
`--sport`/`--dport` clauses. -/
def specRuleFields (protocol : String)
    (sport_start sport_end dport_start dport_end : Nat)
    (src_ip : String) (src_pfx : Nat) (dst_ip : String) (dst_pfx : Nat)
    (ingress_interface egress_interface state : String) : List String :=
  if protocol = "icmp" then
    ["-A", "FORWARD", "-p", protocol,
     "-s", src_ip ++ "/" ++ Nat.repr src_pfx,
     "-d", dst_ip ++ "/" ++ Nat.repr dst_pfx,
     "-i", ingress_interface, "-o", egress_interface,
     "-m", "state", "--state", state, "-j", "ACCEPT"]
  else
    ["-A", "FORWARD", "-p", protocol,
     "--sport", Nat.repr sport_start ++ ":" ++ Nat.repr sport_end,
     "--dport", Nat.repr dport_start ++ ":" ++ Nat.repr dport_end,
     "-s", src_ip ++ "/" ++ Nat.repr src_pfx,
     "-d", dst_ip ++ "/" ++ Nat.repr dst_pfx,
     "-i", ingress_interface, "-o", egress_interface,
     "-m", "state", "--state", state, "-j", "ACCEPT"]

/-- Modelled from the spec: the exact §6 rule line (no trailing space). -/
def specRuleLine (protocol : String)
    (sport_start sport_end dport_start dport_end : Nat)
    (src_ip : String) (src_pfx : Nat) (dst_ip : String) (dst_pfx : Nat)
    (ingress_interface egress_interface state : String) : String :=
  sepBySpace (specRuleFields protocol sport_start sport_end dport_start dport_end
    src_ip src_pfx dst_ip dst_pfx ingress_interface egress_interface state)

/-- Modelled from the spec (§4.4/§6): one table section — the table's name
line, its rules in recorded order, a blank line, then the `COMMIT` line. -/
def specTableBlock (tableName : String) (rules : List String) : String :=
  tableName ++ "\n" ++ renderLines rules ++ "\n" ++ "COMMIT\n"

/-- Modelled from the spec: table sections separated by one blank line. -/
def joinBlocks : List String → String
  | [] => ""
  | [b] => b
  | b :: bs => b ++ "\n" ++ joinBlocks bs

/-- Modelled from the spec: the exact §6 artifact for a router's tables. -/
def specArtifact (tables : List (String × List String)) : String :=
  joinBlocks (tables.map fun p => specTableBlock p.1 p.2)

/-- Example topology: two routers chained through subnet 20
(`s10 — r1 — s20 — r2 — s30`). -/
def exNd : NetworkDesc :=
  { routers := [⟨1⟩, ⟨2⟩],
    subnets := [⟨10, "10.0.0.0", 24⟩, ⟨20, "10.0.1.0", 24⟩, ⟨30, "10.0.2.0", 24⟩],
    links := [⟨1, 10, "eth0", "10.0.0.1"⟩, ⟨1, 20, "eth1", "10.0.1.1"⟩,
              ⟨2, 20, "eth0", "10.0.1.2"⟩, ⟨2, 30, "eth1", "10.0.2.1"⟩] }

/-- A bidirectional tcp communication s10 → s30 across both routers. -/
def exCommBidi : Communication := ⟨10, 30, "tcp", 1, 65535, 80, 80, "bidirectional"⟩

/-- A unidirectional tcp communication s10 → s20 across router 1 only. -/
def exCommUni : Communication := ⟨10, 20, "tcp", 1, 65535, 80, 80, "unidirectional"⟩

/-- A bidirectional icmp communication s10 → s20. -/
def exCommIcmp : Communication := ⟨10, 20, "icmp", 0, 0, 0, 0, "bidirectional"⟩

/-- A self-loop communication (source subnet = target subnet). -/
def exCommSelf : Communication := ⟨10, 10, "tcp", 1, 65535, 80, 80, "unidirectional"⟩

/-- A topology whose single link references router id 5, which is not
declared among the routers. -/
def danglingNd : NetworkDesc :=
  { routers := [⟨1⟩],
    subnets := [⟨1, "10.0.0.0", 24⟩],
    links := [⟨5, 1, "eth0", "10.0.0.1"⟩] }

/-- A disconnected topology: two subnets, no links. -/
def discNd : NetworkDesc :=
  { routers := [],
    subnets := [⟨1, "10.0.0.0", 24⟩, ⟨2, "10.0.1.0", 24⟩],
    links := [] }

/-- A communication between the two disconnected subnets. -/
def discComm : Communication := ⟨1, 2, "tcp", 1, 65535, 80, 80, "unidirectional"⟩

/-- The shape of the rules list a router receives from one communication in
`generate_filter_rule`: the forward rule built from the source/target subnet
attributes and the router's recorded ingress/egress interfaces with state
`NEW,ESTABLISHED`, followed — exactly when the direction is bidirectional —
by the reverse rule with networks, ports and interfaces swapped and the
protocol-dependent reverse state. -/
def hopEntry (g : Graph) (c : Communication) (rn : String) (rules : List String) : Prop :=
  ∃ src dst ingress egress,
    subnetAddr g (sId2sName c.sourceSubnetId) = some src ∧
    subnetAddr g (sId2sName c.targetSubnetId) = some dst ∧
    (∃ lastHop, lookupIface g rn lastHop = some ingress) ∧
    (∃ nextHop, lookupIface g rn nextHop = some egress) ∧
    rules =
      (if c.direction = "bidirectional" then
        [generate_rule_string c.protocol c.sourcePortStart c.sourcePortEnd
           c.targetPortStart c.targetPortEnd src.1 src.2 dst.1 dst.2
           ingress.1 egress.1 "NEW,ESTABLISHED",
         generate_rule_string c.protocol c.targetPortStart c.targetPortEnd
           c.sourcePortStart c.sourcePortEnd dst.1 dst.2 src.1 src.2
           egress.1 ingress.1
           (if c.protocol = "icmp" then "NEW,ESTABLISHED" else "ESTABLISHED")]
      else
        [generate_rule_string c.protocol c.sourcePortStart c.sourcePortEnd
           c.targetPortStart c.targetPortEnd src.1 src.2 dst.1 dst.2
           ingress.1 egress.1 "NEW,ESTABLISHED"])

/-! ### Node names -/

theorem digitChar_isDigit : ∀ m, m < 10 → (Nat.digitChar m).isDigit = true := by decide

theorem toDigitsCore_head_digit :
    ∀ (fuel n : Nat) (ds : List Char),
      ∃ c rest, Nat.toDigitsCore 10 (fuel + 1) n ds = c :: rest ∧ c.isDigit = true := by
  intro fuel
  induction fuel with
  | zero =>
    intro n ds
    by_cases h : n / 10 = 0 <;>
      exact ⟨Nat.digitChar (n % 10), ds, by simp [Nat.toDigitsCore, h],
        digitChar_isDigit _ (Nat.mod_lt _ (by decide))⟩
  | succ fuel ih =>
    intro n ds
    by_cases h : n / 10 = 0
    · exact ⟨Nat.digitChar (n % 10), ds, by simp [Nat.toDigitsCore, h],
        digitChar_isDigit _ (Nat.mod_lt _ (by decide))⟩
    · obtain ⟨c, rest, heq, hdig⟩ := ih (n / 10) (Nat.digitChar (n % 10) :: ds)
      refine ⟨c, rest, ?_, hdig⟩
      simpa [Nat.toDigitsCore, h] using heq

theorem repr_head_digit (n : Nat) :
    ∃ c rest, (Nat.repr n).data = c :: rest ∧ c.isDigit = true := by
  obtain ⟨c, rest, h, hd⟩ := toDigitsCore_head_digit n n []
  exact ⟨c, rest, h, hd⟩

theorem rId2rName_data (n : Nat) : (rId2rName n).data = 'r' :: (Nat.repr n).data := by
  have h1 : "r".data = ['r'] := rfl
  simp [rId2rName, String.data_append, h1]

theorem sId2sName_data (n : Nat) : (sId2sName n).data = 's' :: (Nat.repr n).data := by
  have h1 : "s".data = ['s'] := rfl
  simp [sId2sName, String.data_append, h1]

theorem isRouterName_rId (n : Nat) : isRouterName (rId2rName n) = true := by
  obtain ⟨c, rest, h, hd⟩ := repr_head_digit n
  unfold isRouterName
  rw [rId2rName_data, h]
  exact hd

theorem isRouterName_sId (n : Nat) : isRouterName (sId2sName n) = false := by
  unfold isRouterName
  rw [sId2sName_data]
  cases (Nat.repr n).data with
  | nil => rfl
  | cons c rest => rfl

theorem rId2rName_ne_sId2sName (a b : Nat) : rId2rName a ≠ sId2sName b := by
  intro h
  have hdat := congrArg String.data h
  rw [rId2rName_data, sId2sName_data] at hdat
  exact absurd (List.cons.injEq .. ▸ hdat).1 (by decide)

/-! ### Python dict operations -/

theorem dictGet_dictSet_self {α : Type} (d : List (String × α)) (k : String) (v : α) :
    dictGet (dictSet d k v) k = some v := by
  induction d with
  | nil => simp [dictSet, dictGet]
  | cons p rest ih =>
    by_cases h : p.1 = k
    · simp [dictSet, dictGet, h]
    · simpa [dictSet, dictGet, h] using ih

theorem dictGet_dictSet_ne {α : Type} (d : List (String × α)) (k k' : String) (v : α)
    (h : k' ≠ k) : dictGet (dictSet d k v) k' = dictGet d k' := by
  induction d with
  | nil => simp [dictSet, dictGet, Ne.symm h]
  | cons p rest ih =>
    obtain ⟨a, b⟩ := p
    by_cases hp : a = k
    · subst hp
      simp [dictSet, dictGet, Ne.symm h]
    · by_cases hp' : a = k'
      · simp [dictSet, dictGet, hp, hp', h]
      · simp [dictSet, dictGet, hp, hp', ih]

theorem dictSet_of_not_mem {α : Type} (d : List (String × α)) (k : String) (v : α)
    (h : k ∉ dictKeys d) : dictSet d k v = d ++ [(k, v)] := by
  induction d with
  | nil => simp [dictSet]
  | cons p rest ih =>
    simp only [dictKeys, List.map_cons, List.mem_cons] at h
    push_neg at h
    simp [dictSet, Ne.symm h.1, ih (by simpa [dictKeys] using h.2)]

theorem dictKeys_dictSet_mem {α : Type} (d : List (String × α)) (k : String) (v : α)
    (h : k ∈ dictKeys d) : dictKeys (dictSet d k v) = dictKeys d := by
  induction d with
  | nil => simp [dictKeys] at h
  | cons p rest ih =>
    simp only [dictKeys, List.map_cons, List.mem_cons] at h
    by_cases hp : p.1 = k
    · simp [dictSet, hp, dictKeys]
    · rcases h with h | h
      · exact absurd h.symm hp
      · simpa [dictSet, hp, dictKeys] using ih (by simpa [dictKeys] using h)

theorem dictGet_eq_none_iff {α : Type} (d : List (String × α)) (k : String) :
    dictGet d k = none ↔ k ∉ dictKeys d := by
  induction d with
  | nil => simp [dictGet, dictKeys]
  | cons p rest ih =>
    by_cases hp : p.1 = k <;> simp [dictGet, dictKeys, hp, ih, Ne.symm, eq_comm]

theorem dictGet_isSome_of_mem {α : Type} {d : List (String × α)} {k : String} {v : α}
    (h : (k, v) ∈ d) : (dictGet d k).isSome = true := by
  induction d with
  | nil => simp at h
  | cons p rest ih =>
    rcases List.mem_cons.mp h with h | h
    · simp [dictGet, ← h]
    · by_cases hp : p.1 = k <;> simp [dictGet, hp, ih h]

/-! ### Rendering the rule line and the artifact -/

theorem renderTokens_cons (t : String) (ts : List String) :
    renderTokens (t :: ts) = t ++ " " ++ renderTokens ts := rfl

theorem sepBySpace_cons_cons (t t' : String) (ts : List String) :
    sepBySpace (t :: t' :: ts) = t ++ " " ++ sepBySpace (t' :: ts) := rfl

theorem renderTokens_eq_sepBySpace (t : String) (ts : List String) :
    renderTokens (t :: ts) = sepBySpace (t :: ts) ++ " " := by
  induction ts generalizing t with
  | nil =>
    show t ++ " " ++ "" = t ++ " "
    rw [String.append_empty]
  | cons t' ts' ih =>
    rw [renderTokens_cons, ih t', sepBySpace_cons_cons]
    simp [String.append_assoc]

theorem renderTokens_eq_of_ne_nil (ts : List String) (h : ts ≠ []) :
    renderTokens ts = sepBySpace ts ++ " " := by
  cases ts with
  | nil => exact absurd rfl h
  | cons t ts => exact renderTokens_eq_sepBySpace t ts

theorem specRuleFields_eq_ruleTokens (protocol : String)
    (sport_start sport_end dport_start dport_end : Nat)
    (src_ip : String) (src_pfx : Nat) (dst_ip : String) (dst_pfx : Nat)
    (ingress_interface egress_interface state : String) :
    specRuleFields protocol sport_start sport_end dport_start dport_end
        src_ip src_pfx dst_ip dst_pfx ingress_interface egress_interface state =
      ruleTokens protocol sport_start sport_end dport_start dport_end
        src_ip src_pfx dst_ip dst_pfx ingress_interface egress_interface state := by
  by_cases h : protocol = "icmp" <;>
    simp [specRuleFields, ruleTokens, stateClause, h]

theorem ruleTokens_ne_nil (protocol : String)
    (sport_start sport_end dport_start dport_end : Nat)
    (src_ip : String) (src_pfx : Nat) (dst_ip : String) (dst_pfx : Nat)
    (ingress_interface egress_interface state : String) :
    ruleTokens protocol sport_start sport_end dport_start dport_end
      src_ip src_pfx dst_ip dst_pfx ingress_interface egress_interface state ≠ [] := by
  by_cases h : protocol = "icmp" <;> simp [ruleTokens, h]

theorem generate_rule_string_eq_specRuleLine (protocol : String)
    (sport_start sport_end dport_start dport_end : Nat)
    (src_ip : String) (src_pfx : Nat) (dst_ip : String) (dst_pfx : Nat)
    (ingress_interface egress_interface state : String) :
    generate_rule_string protocol sport_start sport_end dport_start dport_end
        src_ip src_pfx dst_ip dst_pfx ingress_interface egress_interface state =
      specRuleLine protocol sport_start sport_end dport_start dport_end
        src_ip src_pfx dst_ip dst_pfx ingress_interface egress_interface state ++ " " := by
  rw [generate_rule_string, specRuleLine, specRuleFields_eq_ruleTokens]
  exact renderTokens_eq_of_ne_nil _ (ruleTokens_ne_nil _ _ _ _ _ _ _ _ _ _ _ _)

theorem joinBlocks_cons_cons (b b' : String) (bs : List String) :
    joinBlocks (b :: b' :: bs) = b ++ "\n" ++ joinBlocks (b' :: bs) := rfl

theorem commit_split : ("\nCOMMIT\n\n" : String) = "\n" ++ "COMMIT\n" ++ "\n" := rfl

theorem write_content_eq_specArtifact (t : String × List String)
    (ts : List (String × List String)) :
    write_filter_rules_content (t :: ts) = specArtifact (t :: ts) ++ "\n" := by
  induction ts generalizing t with
  | nil =>
    obtain ⟨name, rules⟩ := t
    show name ++ "\n" ++ renderLines rules ++ "\nCOMMIT\n\n" ++ "" =
      specArtifact [(name, rules)] ++ "\n"
    rw [String.append_empty, commit_split]
    show name ++ "\n" ++ renderLines rules ++ ("\n" ++ "COMMIT\n" ++ "\n") =
      (name ++ "\n" ++ renderLines rules ++ "\n" ++ "COMMIT\n") ++ "\n"
    simp [String.append_assoc]
  | cons t' ts' ih =>
    obtain ⟨name, rules⟩ := t
    show name ++ "\n" ++ renderLines rules ++ "\nCOMMIT\n\n" ++
        write_filter_rules_content (t' :: ts') =
      specArtifact ((name, rules) :: t' :: ts') ++ "\n"
    rw [ih t', commit_split]
    show name ++ "\n" ++ renderLines rules ++ ("\n" ++ "COMMIT\n" ++ "\n") ++
        (specArtifact (t' :: ts') ++ "\n") =
      joinBlocks ((name ++ "\n" ++ renderLines rules ++ "\n" ++ "COMMIT\n") ::
        specTableBlock t'.1 t'.2 :: ts'.map fun p => specTableBlock p.1 p.2) ++ "\n"
    rw [joinBlocks_cons_cons]
    show name ++ "\n" ++ renderLines rules ++ ("\n" ++ "COMMIT\n" ++ "\n") ++
        (joinBlocks (specTableBlock t'.1 t'.2 :: ts'.map fun p => specTableBlock p.1 p.2) ++ "\n") =
      (name ++ "\n" ++ renderLines rules ++ "\n" ++ "COMMIT\n" ++ "\n" ++
        joinBlocks (specTableBlock t'.1 t'.2 :: ts'.map fun p => specTableBlock p.1 p.2)) ++ "\n"
    simp [String.append_assoc]

/-! ### Graph construction -/

theorem addNode_edges (g : Graph) (n : String) : (addNode g n).edges = g.edges := by
  unfold addNode; split <;> rfl

theorem addNode_iface (g : Graph) (n : String) : (addNode g n).iface = g.iface := by
  unfold addNode; split <;> rfl

theorem addNode_subnetAttrs (g : Graph) (n : String) :
    (addNode g n).subnetAttrs = g.subnetAttrs := by
  unfold addNode; split <;> rfl

theorem mem_addNode_self (g : Graph) (n : String) : n ∈ (addNode g n).nodes := by
  unfold addNode; split
  · assumption
  · simp

theorem mem_addNode_of_mem (g : Graph) (n m : String) (h : m ∈ g.nodes) :
    m ∈ (addNode g n).nodes := by
  unfold addNode; split
  · exact h
  · simp [h]

theorem addEdge_def (g : Graph) (u v : String) :
    addEdge g u v =
      if hasEdge (addNode (addNode g u) v) u v = true then addNode (addNode g u) v
      else { addNode (addNode g u) v with
             edges := (addNode (addNode g u) v).edges ++ [(u, v)] } := rfl

theorem addEdge_nodes (g : Graph) (u v : String) :
    (addEdge g u v).nodes = (addNode (addNode g u) v).nodes := by
  rw [addEdge_def]; split <;> rfl

theorem addEdge_iface (g : Graph) (u v : String) : (addEdge g u v).iface = g.iface := by
  rw [addEdge_def]; split <;> simp [addNode_iface]

theorem addEdge_subnetAttrs (g : Graph) (u v : String) :
    (addEdge g u v).subnetAttrs = g.subnetAttrs := by
  rw [addEdge_def]; split <;> simp [addNode_subnetAttrs]

theorem mem_addEdge_of_mem (g : Graph) (u v m : String) (h : m ∈ g.nodes) :
    m ∈ (addEdge g u v).nodes := by
  rw [addEdge_nodes]
  exact mem_addNode_of_mem _ _ _ (mem_addNode_of_mem _ _ _ h)

theorem mem_addEdge_left (g : Graph) (u v : String) : u ∈ (addEdge g u v).nodes := by
  rw [addEdge_nodes]
  exact mem_addNode_of_mem _ _ _ (mem_addNode_self _ _)

theorem mem_addEdge_right (g : Graph) (u v : String) : v ∈ (addEdge g u v).nodes := by
  rw [addEdge_nodes]
  exact mem_addNode_self _ _

theorem adjB_iff (E : List (String × String)) (u v : String) :
    adjB E u v = true ↔ (u, v) ∈ E ∨ (v, u) ∈ E := by
  simp only [adjB, List.any_eq_true, Bool.or_eq_true, Bool.and_eq_true, beq_iff_eq]
  constructor
  · rintro ⟨e, he, ⟨h1, h2⟩ | ⟨h1, h2⟩⟩
    · left; rwa [← h1, ← h2, Prod.mk.eta]
    · right; rwa [← h1, ← h2, Prod.mk.eta]
  · rintro (h | h)
    · exact ⟨(u, v), h, Or.inl ⟨rfl, rfl⟩⟩
    · exact ⟨(v, u), h, Or.inr ⟨rfl, rfl⟩⟩

theorem adjB_symm {E : List (String × String)} {u v : String} (h : adjB E u v = true) :
    adjB E v u = true := by
  rw [adjB_iff] at h ⊢
  exact h.symm

theorem adjB_mono {E E' : List (String × String)} {u v : String}
    (hsub : ∀ e, e ∈ E → e ∈ E') (h : adjB E u v = true) : adjB E' u v = true := by
  rw [adjB_iff] at h ⊢
  rcases h with h | h
  · exact Or.inl (hsub _ h)
  · exact Or.inr (hsub _ h)

theorem addEdge_edges_sub (g : Graph) (u v : String) :
    ∀ e, e ∈ (addEdge g u v).edges → e ∈ g.edges ∨ e = (u, v) := by
  intro e he
  rw [addEdge_def] at he
  split at he
  · exact Or.inl (by simpa [addNode_edges] using he)
  · simp only [addNode_edges, List.mem_append, List.mem_singleton] at he
    exact he

theorem mem_edges_addEdge (g : Graph) (u v : String) :
    ∀ e, e ∈ g.edges → e ∈ (addEdge g u v).edges := by
  intro e he
  rw [addEdge_def]
  split
  · simpa [addNode_edges] using he
  · simp [addNode_edges, he]

theorem hasEdge_addEdge_self (g : Graph) (u v : String) :
    hasEdge (addEdge g u v) u v = true := by
  rw [addEdge_def]
  split
  · next h =>
    unfold hasEdge at h ⊢
    simpa [addNode_edges] using h
  · unfold hasEdge
    rw [adjB_iff]
    simp [addNode_edges]

theorem setIface_edges (g : Graph) (r s a b : String) :
    (setIface g r s a b).edges = g.edges := rfl

theorem setIface_nodes (g : Graph) (r s a b : String) :
    (setIface g r s a b).nodes = g.nodes := rfl

theorem lookupIface_setIface_self (g : Graph) (r s a b : String) :
    lookupIface (setIface g r s a b) r s = some (a, b) := by
  simp [lookupIface, setIface, List.find?]

theorem lookupIface_setIface_isSome (g : Graph) (r s a b u v : String)
    (h : (lookupIface g u v).isSome = true) :
    (lookupIface (setIface g r s a b) u v).isSome = true := by
  by_cases hm : (r == u && s == v) = true
  · simp [lookupIface, setIface, List.find?, hm]
  · rw [Bool.not_eq_true] at hm
    simp only [lookupIface, setIface, List.find?]
    rw [hm]
    exact h

theorem lookupIface_addEdge (g : Graph) (u v r s : String) :
    lookupIface (addEdge g u v) r s = lookupIface g r s := by
  simp [lookupIface, addEdge_iface]

theorem lookupIface_addNode (g : Graph) (n r s : String) :
    lookupIface (addNode g n) r s = lookupIface g r s := by
  simp [lookupIface, addNode_iface]

theorem setIface_subnetAttrs (g : Graph) (r s a b : String) :
    (setIface g r s a b).subnetAttrs = g.subnetAttrs := rfl

theorem setSubnetAttr_edges (g : Graph) (n addr : String) (p : Nat) :
    (setSubnetAttr g n addr p).edges = g.edges := rfl

theorem setSubnetAttr_iface (g : Graph) (n addr : String) (p : Nat) :
    (setSubnetAttr g n addr p).iface = g.iface := rfl

theorem linkStep_edges_sub (g : Graph) (l : Link) :
    ∀ e, e ∈ (linkStep g l).edges →
      e ∈ g.edges ∨ e = (rId2rName l.routerId, sId2sName l.subnetId) := by
  intro e he
  rw [linkStep, setIface_edges] at he
  exact addEdge_edges_sub g _ _ e he

theorem linkStep_mem_edges (g : Graph) (l : Link) :
    ∀ e, e ∈ g.edges → e ∈ (linkStep g l).edges := by
  intro e he
  rw [linkStep, setIface_edges]
  exact mem_edges_addEdge g _ _ e he

theorem linkStep_mem_nodes (g : Graph) (l : Link) :
    ∀ m, m ∈ g.nodes → m ∈ (linkStep g l).nodes := by
  intro m hm
  rw [linkStep, setIface_nodes]
  exact mem_addEdge_of_mem _ _ _ _ hm

theorem linkStep_iface_sub (g : Graph) (l : Link) :
    ∀ en, en ∈ (linkStep g l).iface →
      en ∈ g.iface ∨
        en = ((rId2rName l.routerId, sId2sName l.subnetId), l.interfaceId, l.ip) := by
  intro en hen
  rw [linkStep] at hen
  simp only [setIface, addEdge_iface, List.mem_cons] at hen
  rcases hen with h | h
  · exact Or.inr h
  · exact Or.inl h

theorem linkStep_subnetAttrs (g : Graph) (l : Link) :
    (linkStep g l).subnetAttrs = g.subnetAttrs := by
  rw [linkStep, setIface_subnetAttrs, addEdge_subnetAttrs]

theorem linkStep_iface_def (g : Graph) (l : Link)
    (h : ∀ u v, (u, v) ∈ g.edges → (lookupIface g u v).isSome = true) :
    ∀ u v, (u, v) ∈ (linkStep g l).edges →
      (lookupIface (linkStep g l) u v).isSome = true := by
  intro u v hmem
  rw [linkStep, setIface_edges] at hmem
  rcases addEdge_edges_sub g _ _ _ hmem with hold | hnew
  · rw [linkStep]
    exact lookupIface_setIface_isSome _ _ _ _ _ _ _
      (by rw [lookupIface_addEdge]; exact h u v hold)
  · obtain ⟨hu, hv⟩ := Prod.mk.injEq .. ▸ hnew
    subst hu; subst hv
    rw [linkStep, lookupIface_setIface_self]
    rfl

theorem foldl_linkStep_edges_sub :
    ∀ (ls : List Link) (g : Graph) (e : String × String),
      e ∈ (ls.foldl linkStep g).edges →
        e ∈ g.edges ∨ ∃ l ∈ ls, e = (rId2rName l.routerId, sId2sName l.subnetId) := by
  intro ls
  induction ls with
  | nil => intro g e h; exact Or.inl h
  | cons l ls ih =>
    intro g e h
    rcases ih (linkStep g l) e h with h' | ⟨l', hl', he⟩
    · rcases linkStep_edges_sub g l e h' with h'' | he
      · exact Or.inl h''
      · exact Or.inr ⟨l, List.mem_cons_self l ls, he⟩
    · exact Or.inr ⟨l', List.mem_cons_of_mem l hl', he⟩

theorem foldl_linkStep_iface_sub :
    ∀ (ls : List Link) (g : Graph) (en : (String × String) × String × String),
      en ∈ (ls.foldl linkStep g).iface →
        en ∈ g.iface ∨
          ∃ l ∈ ls,
            en = ((rId2rName l.routerId, sId2sName l.subnetId), l.interfaceId, l.ip) := by
  intro ls
  induction ls with
  | nil => intro g en h; exact Or.inl h
  | cons l ls ih =>
    intro g en h
    rcases ih (linkStep g l) en h with h' | ⟨l', hl', he⟩
    · rcases linkStep_iface_sub g l en h' with h'' | he
      · exact Or.inl h''
      · exact Or.inr ⟨l, List.mem_cons_self l ls, he⟩
    · exact Or.inr ⟨l', List.mem_cons_of_mem l hl', he⟩

theorem foldl_linkStep_mem_nodes :
    ∀ (ls : List Link) (g : Graph) (m : String),
      m ∈ g.nodes → m ∈ (ls.foldl linkStep g).nodes := by
  intro ls
  induction ls with
  | nil => intro g m h; exact h
  | cons l ls ih => intro g m h; exact ih _ _ (linkStep_mem_nodes g l m h)

theorem foldl_linkStep_mem_edges :
    ∀ (ls : List Link) (g : Graph) (e : String × String),
      e ∈ g.edges → e ∈ (ls.foldl linkStep g).edges := by
  intro ls
  induction ls with
  | nil => intro g e h; exact h
  | cons l ls ih => intro g e h; exact ih _ _ (linkStep_mem_edges g l e h)

theorem foldl_linkStep_iface_def :
    ∀ (ls : List Link) (g : Graph),
      (∀ u v, (u, v) ∈ g.edges → (lookupIface g u v).isSome = true) →
      ∀ u v, (u, v) ∈ (ls.foldl linkStep g).edges →
        (lookupIface (ls.foldl linkStep g) u v).isSome = true := by
  intro ls
  induction ls with
  | nil => intro g h; exact h
  | cons l ls ih => intro g h; exact ih (linkStep g l) (linkStep_iface_def g l h)

theorem foldl_linkStep_link_present :
    ∀ (ls : List Link) (g : Graph) (l : Link), l ∈ ls →
      rId2rName l.routerId ∈ (ls.foldl linkStep g).nodes ∧
      sId2sName l.subnetId ∈ (ls.foldl linkStep g).nodes ∧
      adjB (ls.foldl linkStep g).edges (rId2rName l.routerId) (sId2sName l.subnetId) = true := by
  intro ls
  induction ls with
  | nil => intro g l h; simp at h
  | cons l' ls ih =>
    intro g l h
    rcases List.mem_cons.mp h with h | h
    · subst h
      refine ⟨?_, ?_, ?_⟩
      · refine foldl_linkStep_mem_nodes ls _ _ ?_
        rw [linkStep, setIface_nodes]
        exact mem_addEdge_left _ _ _
      · refine foldl_linkStep_mem_nodes ls _ _ ?_
        rw [linkStep, setIface_nodes]
        exact mem_addEdge_right _ _ _
      · refine adjB_mono (fun e he => foldl_linkStep_mem_edges ls _ e he) ?_
        have := hasEdge_addEdge_self g (rId2rName l.routerId) (sId2sName l.subnetId)
        unfold hasEdge at this
        rw [linkStep, setIface_edges]
        exact this
    · exact ih (linkStep g l') l h

theorem foldl_routerStep_edges :
    ∀ (rs : List Router) (g : Graph), (rs.foldl routerStep g).edges = g.edges := by
  intro rs
  induction rs with
  | nil => intro g; rfl
  | cons r rs ih => intro g; rw [List.foldl_cons, ih, routerStep, addNode_edges]

theorem foldl_routerStep_iface :
    ∀ (rs : List Router) (g : Graph), (rs.foldl routerStep g).iface = g.iface := by
  intro rs
  induction rs with
  | nil => intro g; rfl
  | cons r rs ih => intro g; rw [List.foldl_cons, ih, routerStep, addNode_iface]

theorem foldl_subnetStep_edges :
    ∀ (ss : List Subnet) (g : Graph), (ss.foldl subnetStep g).edges = g.edges := by
  intro ss
  induction ss with
  | nil => intro g; rfl
  | cons s ss ih =>
    intro g
    rw [List.foldl_cons, ih, subnetStep, setSubnetAttr_edges, addNode_edges]

theorem foldl_subnetStep_iface :
    ∀ (ss : List Subnet) (g : Graph), (ss.foldl subnetStep g).iface = g.iface := by
  intro ss
  induction ss with
  | nil => intro g; rfl
  | cons s ss ih =>
    intro g
    rw [List.foldl_cons, ih, subnetStep, setSubnetAttr_iface, addNode_iface]

theorem gng_eq (nd : NetworkDesc) :
    generate_network_graph nd =
      nd.links.foldl linkStep
        (nd.subnets.foldl subnetStep (nd.routers.foldl routerStep ⟨[], [], [], []⟩)) := rfl

theorem gng_base_edges (nd : NetworkDesc) :
    (nd.subnets.foldl subnetStep (nd.routers.foldl routerStep
      (⟨[], [], [], []⟩ : Graph))).edges = [] := by
  rw [foldl_subnetStep_edges, foldl_routerStep_edges]

theorem gng_base_iface (nd : NetworkDesc) :
    (nd.subnets.foldl subnetStep (nd.routers.foldl routerStep
      (⟨[], [], [], []⟩ : Graph))).iface = [] := by
  rw [foldl_subnetStep_iface, foldl_routerStep_iface]

/-- Every edge of the generated graph comes from a declared link and is
stored with the router name first and the subnet name second. -/
theorem gng_edges_shape (nd : NetworkDesc) :
    ∀ e ∈ (generate_network_graph nd).edges,
      ∃ l ∈ nd.links, e = (rId2rName l.routerId, sId2sName l.subnetId) := by
  intro e he
  rw [gng_eq] at he
  rcases foldl_linkStep_edges_sub nd.links _ e he with h | h
  · rw [gng_base_edges] at h
    simp at h
  · exact h

/-- Every recorded router interface attribute comes from a declared link. -/
theorem gng_iface_shape (nd : NetworkDesc) :
    ∀ en ∈ (generate_network_graph nd).iface,
      ∃ l ∈ nd.links,
        en = ((rId2rName l.routerId, sId2sName l.subnetId), l.interfaceId, l.ip) := by
  intro en hen
  rw [gng_eq] at hen
  rcases foldl_linkStep_iface_sub nd.links _ en hen with h | h
  · rw [gng_base_iface] at h
    simp at h
  · exact h

/-- Every edge of the generated graph has a recorded interface attribute for
its (router, subnet) orientation. -/
theorem gng_edge_iface (nd : NetworkDesc) :
    ∀ u v, (u, v) ∈ (generate_network_graph nd).edges →
      (lookupIface (generate_network_graph nd) u v).isSome = true := by
  rw [gng_eq]
  refine foldl_linkStep_iface_def nd.links _ ?_
  intro u v h
  rw [gng_base_edges] at h
  simp at h


/-! ### Breadth-first search: soundness -/

theorem mem_neighborsOf {E : List (String × String)} {v w : String}
    (h : w ∈ neighborsOf E v) : adjB E v w = true := by
  simp only [neighborsOf, List.mem_filterMap] at h
  obtain ⟨e, he, hcond⟩ := h
  rw [adjB_iff]
  by_cases h1 : e.1 = v
  · left
    simp only [h1, beq_self_eq_true, if_pos] at hcond
    obtain rfl : e.2 = w := by simpa using hcond
    rwa [← h1, Prod.mk.eta]
  · right
    rw [if_neg (by simpa using h1)] at hcond
    by_cases h2 : e.2 = v
    · simp only [h2, beq_self_eq_true, if_pos] at hcond
      obtain rfl : e.1 = w := by simpa using hcond
      rwa [← h2, Prod.mk.eta]
    · rw [if_neg (by simpa using h2)] at hcond
      simp at hcond

theorem chainB_tail {E : List (String × String)} {a : String} {t : List String}
    (h : chainB E (a :: t) = true) : chainB E t = true := by
  cases t with
  | nil => rfl
  | cons b t' =>
    rw [show chainB E (a :: b :: t') = (adjB E a b && chainB E (b :: t')) from rfl,
      Bool.and_eq_true] at h
    exact h.2

theorem chainB_iff_chain' (E : List (String × String)) :
    ∀ p, chainB E p = true ↔ List.Chain' (fun a b => adjB E a b = true) p := by
  intro p
  induction p with
  | nil => simp [chainB]
  | cons a t ih =>
    cases t with
    | nil => simp [chainB]
    | cons b t' =>
      rw [List.chain'_cons,
        show chainB E (a :: b :: t') = (adjB E a b && chainB E (b :: t')) from rfl,
        Bool.and_eq_true, ih]

theorem chainB_reverse_of {E : List (String × String)} {p : List String}
    (h : chainB E p = true) : chainB E p.reverse = true := by
  rw [chainB_iff_chain'] at h ⊢
  rw [List.chain'_reverse]
  exact List.Chain'.imp (fun a b hab => adjB_symm hab) h

theorem chain_adj_get {E : List (String × String)} :
    ∀ (p : List String) (i : Nat) (a b : String), chainB E p = true →
      p.get? i = some a → p.get? (i + 1) = some b → adjB E a b = true := by
  intro p
  induction p with
  | nil => intro i a b _ ha _; simp at ha
  | cons v t ih =>
    intro i a b hch ha hb
    cases i with
    | zero =>
      have hva : v = a := by simpa using ha
      cases t with
      | nil => simp at hb
      | cons u t' =>
        have hub : u = b := by simpa using hb
        rw [show chainB E (v :: u :: t') = (adjB E v u && chainB E (u :: t')) from rfl,
          Bool.and_eq_true] at hch
        rw [← hva, ← hub]
        exact hch.1
    | succ i =>
      exact ih i a b (chainB_tail hch) (by simpa using ha) (by simpa using hb)

theorem bfs_sound (E : List (String × String)) (target src : String) :
    ∀ (fuel : Nat) (queue : List (List String)) (visited : List String) (p : List String),
      (∀ rp ∈ queue, rp ≠ [] ∧ rp.getLast? = some src ∧ chainB E rp = true ∧
        rp.Nodup ∧ ∀ x ∈ rp, x ∈ visited) →
      bfsAux E target fuel queue visited = some p →
      p.head? = some src ∧ p.getLast? = some target ∧ chainB E p = true ∧ p.Nodup := by
  intro fuel
  induction fuel with
  | zero =>
    intro queue visited p _ h
    simp [bfsAux] at h
  | succ fuel ih =>
    intro queue visited p hinv h
    cases queue with
    | nil => simp [bfsAux] at h
    | cons rp queue' =>
      obtain ⟨hne, hlast, hchain, hnodup, hmem⟩ := hinv rp (List.mem_cons_self rp queue')
      cases hrp : rp with
      | nil => exact absurd hrp hne
      | cons v t =>
        subst hrp
        rw [bfsAux] at h
        split at h
        · next heq =>
          obtain rfl : (v :: t).reverse = p := by simpa using h
          refine ⟨?_, ?_, ?_, ?_⟩
          · rw [List.head?_reverse]
            exact hlast
          · rw [List.getLast?_reverse]
            simpa using heq
          · exact chainB_reverse_of hchain
          · exact List.nodup_reverse.mpr hnodup
        · next hne_target =>
          refine ih _ _ p ?_ h
          intro rp' hrp'
          rcases List.mem_append.mp hrp' with hold | hnew
          · obtain ⟨h1, h2, h3, h4, h5⟩ := hinv rp' (List.mem_cons_of_mem _ hold)
            exact ⟨h1, h2, h3, h4, fun x hx => List.mem_append_left _ (h5 x hx)⟩
          · obtain ⟨w, hw, rfl⟩ := List.mem_map.mp hnew
            have hwn : w ∈ neighborsOf E v := (List.mem_filter.mp hw).1
            have hwv : visited.contains w = false := by
              have := (List.mem_filter.mp hw).2
              simpa using this
            have hwnotvis : w ∉ visited := by
              intro hcontra
              rw [List.contains_eq_any_beq] at hwv
              simp [List.any_eq_true] at hwv
              exact hwv w hcontra rfl
            refine ⟨by simp, ?_, ?_, ?_, ?_⟩
            · rw [List.getLast?_cons_cons]
              exact hlast
            · rw [show chainB E (w :: v :: t) = (adjB E w v && chainB E (v :: t)) from rfl,
                Bool.and_eq_true]
              exact ⟨adjB_symm (mem_neighborsOf hwn), hchain⟩
            · refine List.nodup_cons.mpr ⟨?_, hnodup⟩
              intro hcontra
              exact hwnotvis (hmem w hcontra)
            · intro x hx
              rcases List.mem_cons.mp hx with rfl | hx
              · exact List.mem_append_right _ hw
              · exact List.mem_append_left _ (hmem x hx)

theorem shortest_path_sound {g : Graph} {src dst : String} {p : List String}
    (h : shortest_path g src dst = .ok p) :
    p.head? = some src ∧ p.getLast? = some dst ∧ chainB g.edges p = true ∧ p.Nodup := by
  unfold shortest_path at h
  split at h
  · split at h
    · split at h
      · next p' heq =>
        obtain rfl : p' = p := by simpa using h
        refine bfs_sound g.edges dst src _ [[src]] [src] p' ?_ heq
        intro rp hrp
        obtain rfl : rp = [src] := by simpa using hrp
        exact ⟨by simp, rfl, rfl, by simp, by simp⟩
      · simp at h
    · simp at h
  · simp at h

theorem shortest_path_self (g : Graph) (src : String) (h : src ∈ g.nodes) :
    shortest_path g src src = .ok [src] := by
  unfold shortest_path
  rw [if_pos h, if_pos h]
  have hb : bfsAux g.edges src (2 * g.edges.length + 2) [[src]] [src] = some [src] := by
    show bfsAux g.edges src (2 * g.edges.length + 1 + 1) [[src]] [src] = some [src]
    rw [bfsAux]
    simp
  rw [hb]

/-! ### Bipartite structure of generated graphs -/

theorem gng_adj_flip (nd : NetworkDesc) {a b : String}
    (h : adjB (generate_network_graph nd).edges a b = true) :
    isRouterName b = !(isRouterName a) := by
  rw [adjB_iff] at h
  rcases h with h | h
  · obtain ⟨l, _, he⟩ := gng_edges_shape nd _ h
    rw [Prod.ext_iff] at he
    obtain ⟨ha, hb⟩ := he
    simp only at ha hb
    rw [ha, hb, isRouterName_rId, isRouterName_sId]
    rfl
  · obtain ⟨l, _, he⟩ := gng_edges_shape nd _ h
    rw [Prod.ext_iff] at he
    obtain ⟨hb, ha⟩ := he
    simp only at ha hb
    rw [ha, hb, isRouterName_rId, isRouterName_sId]
    rfl

theorem gng_router_edge_orient (nd : NetworkDesc) {x u : String}
    (hadj : adjB (generate_network_graph nd).edges x u = true)
    (hx : isRouterName x = true) : (x, u) ∈ (generate_network_graph nd).edges := by
  rw [adjB_iff] at hadj
  rcases hadj with h | h
  · exact h
  · exfalso
    obtain ⟨l, _, he⟩ := gng_edges_shape nd _ h
    rw [Prod.ext_iff] at he
    obtain ⟨_, hxs⟩ := he
    simp only at hxs
    rw [hxs, isRouterName_sId] at hx
    exact Bool.false_ne_true hx

/-- **C9**: every path the path resolver returns between two subnet nodes
alternates kinds (consecutive hops always differ between router and subnet,
which with subnet endpoints is exactly the subnet/router/…/subnet shape);
a router node is never first or last, so the `path[i-1]`/`path[i+1]`
accesses are in bounds, the neighbors are subnets, and the interface
lookups `graph.nodes[router][neighbor]` are defined.  The precondition that
every link joins one router and one subnet holds by construction here:
every edge of a generated graph is (router name, subnet name). -/
theorem c9_path_alternation (nd : NetworkDesc) (sid tid : Nat) (path : List String)
    (hsp : shortest_path (generate_network_graph nd)
      (sId2sName sid) (sId2sName tid) = .ok path) :
    (∀ i a b, path.get? i = some a → path.get? (i + 1) = some b →
      isRouterName b = !(isRouterName a)) ∧
    (∀ i x, path.get? i = some x → isRouterName x = true →
      0 < i ∧ i + 1 < path.length ∧
      (∃ u, path.get? (i - 1) = some u ∧ isRouterName u = false ∧
        (lookupIface (generate_network_graph nd) x u).isSome = true) ∧
      (∃ w, path.get? (i + 1) = some w ∧ isRouterName w = false ∧
        (lookupIface (generate_network_graph nd) x w).isSome = true)) := by
  obtain ⟨hhead, hlast, hchain, _⟩ := shortest_path_sound hsp
  refine ⟨?_, ?_⟩
  · intro i a b ha hb
    exact gng_adj_flip nd (chain_adj_get path i a b hchain ha hb)
  · intro i x hx hrx
    obtain ⟨hlen, _⟩ := List.get?_eq_some.mp hx
    have hpos : 0 < i := by
      rcases Nat.eq_zero_or_pos i with rfl | hpos
      · exfalso
        cases hp : path with
        | nil => rw [hp] at hhead; simp at hhead
        | cons hd tl =>
          rw [hp] at hx hhead
          have hxd : hd = x := by simpa using hx
          have hds : hd = sId2sName sid := by simpa using hhead
          rw [← hxd, hds, isRouterName_sId] at hrx
          exact Bool.false_ne_true hrx
      · exact hpos
    have hne_last : i ≠ path.length - 1 := by
      intro heq
      have hgl : path.get? i = path.getLast? := by
        rw [List.get?_eq_getElem?, List.getLast?_eq_getElem?, heq]
      rw [hgl, hlast] at hx
      have hxt : sId2sName tid = x := by simpa using hx
      rw [← hxt, isRouterName_sId] at hrx
      exact Bool.false_ne_true hrx
    have hlt1 : i + 1 < path.length := by omega
    have hltm : i - 1 < path.length := by omega
    obtain ⟨u, hu⟩ : ∃ u, path.get? (i - 1) = some u := ⟨_, List.get?_eq_get hltm⟩
    obtain ⟨w, hw⟩ : ∃ w, path.get? (i + 1) = some w := ⟨_, List.get?_eq_get hlt1⟩
    have hadj_ux : adjB (generate_network_graph nd).edges u x = true := by
      refine chain_adj_get path (i - 1) u x hchain hu ?_
      rw [Nat.sub_add_cancel hpos]
      exact hx
    have hadj_xu := adjB_symm hadj_ux
    have hadj_xw : adjB (generate_network_graph nd).edges x w = true :=
      chain_adj_get path i x w hchain hx hw
    have hu_sub : isRouterName u = false := by
      have hflip := gng_adj_flip nd hadj_xu
      rw [hrx] at hflip
      simpa using hflip
    have hw_sub : isRouterName w = false := by
      have hflip := gng_adj_flip nd hadj_xw
      rw [hrx] at hflip
      simpa using hflip
    exact ⟨hpos, hlt1,
      ⟨u, hu, hu_sub, gng_edge_iface nd x u (gng_router_edge_orient nd hadj_xu hrx)⟩,
      ⟨w, hw, hw_sub, gng_edge_iface nd x w (gng_router_edge_orient nd hadj_xw hrx)⟩⟩

/-- C9 instantiated on the concrete two-router topology, on the path
`s10 r1 s20 r2 s30` actually returned by the path resolver. -/
theorem c9_path_alternation_witness :
    (∀ i a b, (["s10", "r1", "s20", "r2", "s30"] : List String).get? i = some a →
      (["s10", "r1", "s20", "r2", "s30"] : List String).get? (i + 1) = some b →
      isRouterName b = !(isRouterName a)) ∧
    (∀ i x, (["s10", "r1", "s20", "r2", "s30"] : List String).get? i = some x →
      isRouterName x = true →
      0 < i ∧ i + 1 < (["s10", "r1", "s20", "r2", "s30"] : List String).length ∧
      (∃ u, (["s10", "r1", "s20", "r2", "s30"] : List String).get? (i - 1) = some u ∧
        isRouterName u = false ∧
        (lookupIface (generate_network_graph exNd) x u).isSome = true) ∧
      (∃ w, (["s10", "r1", "s20", "r2", "s30"] : List String).get? (i + 1) = some w ∧
        isRouterName w = false ∧
        (lookupIface (generate_network_graph exNd) x w).isSome = true)) :=
  c9_path_alternation exNd 10 30 ["s10", "r1", "s20", "r2", "s30"] (by rfl)

/-! ### The per-hop rule loop -/

theorem hopRules_ok {g : Graph} {c : Communication} {path : List String} {i : Nat}
    {routerName : String} {acc acc' : List (String × List String)}
    (h : hopRules g c path i routerName acc = .ok acc') :
    ∃ last_hop next_hop src dst ingress egress,
      pyGet path ((i : Int) - 1) = some last_hop ∧
      pyGet path ((i : Int) + 1) = some next_hop ∧
      subnetAddr g (sId2sName c.sourceSubnetId) = some src ∧
      subnetAddr g (sId2sName c.targetSubnetId) = some dst ∧
      lookupIface g routerName last_hop = some ingress ∧
      lookupIface g routerName next_hop = some egress ∧
      acc' = dictSet acc routerName
        (if c.direction = "bidirectional" then
          [generate_rule_string c.protocol c.sourcePortStart c.sourcePortEnd
             c.targetPortStart c.targetPortEnd src.1 src.2 dst.1 dst.2
             ingress.1 egress.1 "NEW,ESTABLISHED",
           generate_rule_string c.protocol c.targetPortStart c.targetPortEnd
             c.sourcePortStart c.sourcePortEnd dst.1 dst.2 src.1 src.2
             egress.1 ingress.1
             (if c.protocol = "icmp" then "NEW,ESTABLISHED" else "ESTABLISHED")]
        else
          [generate_rule_string c.protocol c.sourcePortStart c.sourcePortEnd
             c.targetPortStart c.targetPortEnd src.1 src.2 dst.1 dst.2
             ingress.1 egress.1 "NEW,ESTABLISHED"]) := by
  unfold hopRules at h
  split at h
  · exact absurd h (by simp)
  next last_hop hl =>
  split at h
  · exact absurd h (by simp)
  next next_hop hn =>
  split at h
  · exact absurd h (by simp)
  next src hs =>
  split at h
  · exact absurd h (by simp)
  next dst hd =>
  split at h
  · exact absurd h (by simp)
  next ingress hi =>
  split at h
  · exact absurd h (by simp)
  next egress he =>
  refine ⟨last_hop, next_hop, src, dst, ingress, egress, hl, hn, hs, hd, hi, he, ?_⟩
  by_cases hb : c.direction = "bidirectional"
  · rw [if_pos hb]
    rw [if_pos hb] at h
    exact (Except.ok.inj h).symm
  · rw [if_neg hb]
    rw [if_neg hb] at h
    exact (Except.ok.inj h).symm

theorem genHops_spec (g : Graph) (c : Communication) (path : List String) :
    ∀ (l : List String) (i : Nat) (acc m : List (String × List String)),
      (l.filter fun n => isRouterName n).Nodup →
      (∀ x ∈ l, isRouterName x = true → x ∉ dictKeys acc) →
      genHops g c path l i acc = .ok m →
      dictKeys m = dictKeys acc ++ (l.filter fun n => isRouterName n) ∧
      ∀ p ∈ m, p ∈ acc ∨ (isRouterName p.1 = true ∧ hopEntry g c p.1 p.2) := by
  intro l
  induction l with
  | nil =>
    intro i acc m _ _ h
    obtain rfl : acc = m := by simpa [genHops] using h
    exact ⟨by simp, fun p hp => Or.inl hp⟩
  | cons node rest ih =>
    intro i acc m hnodup hfresh h
    rw [genHops] at h
    by_cases hr : isRouterName node = true
    · rw [if_pos hr] at h
      cases hh : hopRules g c path i node acc with
      | error e => rw [hh] at h; simp at h
      | ok acc' =>
        rw [hh] at h
        obtain ⟨last_hop, next_hop, src, dst, ingress, egress,
          _, _, hs, hd, hi, he, hacc'⟩ := hopRules_ok hh
        have hnode_fresh : node ∉ dictKeys acc :=
          hfresh node (List.mem_cons_self node rest) hr
        rw [dictSet_of_not_mem _ _ _ hnode_fresh] at hacc'
        have hfilter_cons : (node :: rest).filter (fun n => isRouterName n) =
            node :: rest.filter (fun n => isRouterName n) := by
          simp [List.filter_cons, hr]
        have hnodup' : (rest.filter fun n => isRouterName n).Nodup := by
          rw [hfilter_cons] at hnodup
          exact (List.nodup_cons.mp hnodup).2
        have hnode_notin : node ∉ rest.filter fun n => isRouterName n := by
          rw [hfilter_cons] at hnodup
          exact (List.nodup_cons.mp hnodup).1
        have hfresh' : ∀ x ∈ rest, isRouterName x = true → x ∉ dictKeys acc' := by
          intro x hx hxr hcontra
          rw [hacc'] at hcontra
          simp only [dictKeys, List.map_append, List.mem_append] at hcontra
          rcases hcontra with hc | hc
          · exact hfresh x (List.mem_cons_of_mem node hx) hxr hc
          · have hxnode : x = node := by simpa using hc
            exact hnode_notin (hxnode ▸ List.mem_filter.mpr ⟨hx, hxr⟩)
        obtain ⟨hkeys, hentries⟩ := ih (i + 1) acc' m hnodup' hfresh' h
        constructor
        · rw [hkeys, hacc', hfilter_cons]
          simp [dictKeys]
        · intro p hp
          rcases hentries p hp with hpacc' | hpe
          · rw [hacc'] at hpacc'
            rcases List.mem_append.mp hpacc' with hpa | hpn
            · exact Or.inl hpa
            · have hpn' := List.mem_singleton.mp hpn
              subst hpn'
              exact Or.inr ⟨hr, ⟨src, dst, ingress, egress, hs, hd,
                ⟨last_hop, hi⟩, ⟨next_hop, he⟩, rfl⟩⟩
          · exact Or.inr hpe
    · rw [if_neg hr] at h
      have hfilter_cons : (node :: rest).filter (fun n => isRouterName n) =
          rest.filter (fun n => isRouterName n) := by
        simp [List.filter_cons, hr]
      have hfresh' : ∀ x ∈ rest, isRouterName x = true → x ∉ dictKeys acc :=
        fun x hx hxr => hfresh x (List.mem_cons_of_mem node hx) hxr
      obtain ⟨hkeys, hentries⟩ := ih (i + 1) acc m (hfilter_cons ▸ hnodup) hfresh' h
      exact ⟨by rw [hkeys, hfilter_cons], hentries⟩

theorem generate_filter_rule_ok {g : Graph} {c : Communication}
    {m : List (String × List String)}
    (h : generate_filter_rule g c = .ok m) :
    ∃ path,
      shortest_path g (sId2sName c.sourceSubnetId) (sId2sName c.targetSubnetId) = .ok path ∧
      dictKeys m = (path.filter fun n => isRouterName n) ∧
      ∀ p ∈ m, isRouterName p.1 = true ∧ hopEntry g c p.1 p.2 := by
  unfold generate_filter_rule at h
  cases hsp : shortest_path g (sId2sName c.sourceSubnetId) (sId2sName c.targetSubnetId) with
  | error e => rw [hsp] at h; simp at h
  | ok path =>
    rw [hsp] at h
    obtain ⟨_, _, _, hnodup⟩ := shortest_path_sound hsp
    obtain ⟨hkeys, hent⟩ := genHops_spec g c path path 0 [] m
      (hnodup.filter _) (by simp [dictKeys]) h
    refine ⟨path, rfl, by simpa [dictKeys] using hkeys, ?_⟩
    intro p hp
    rcases hent p hp with habs | he
    · simp at habs
    · exact he

/-! ### Token-level facts about rule strings -/

theorem ruleTokens_split (protocol : String)
    (sport_start sport_end dport_start dport_end : Nat)
    (src_ip : String) (src_pfx : Nat) (dst_ip : String) (dst_pfx : Nat)
    (ingress_interface egress_interface state : String) :
    ∃ pre, ruleTokens protocol sport_start sport_end dport_start dport_end
      src_ip src_pfx dst_ip dst_pfx ingress_interface egress_interface state =
      pre ++ stateClause state := by
  by_cases h : protocol = "icmp"
  · exact ⟨_, by rw [ruleTokens, if_pos h]⟩
  · exact ⟨_, by rw [ruleTokens, if_neg h]⟩

theorem lookupIface_mem {g : Graph} {r s : String} {pr : String × String}
    (h : lookupIface g r s = some pr) : ∃ en ∈ g.iface, en.2 = pr := by
  unfold lookupIface at h
  cases hf : g.iface.find? (fun e => e.1.1 == r && e.1.2 == s) with
  | none => rw [hf] at h; simp at h
  | some en =>
    rw [hf] at h
    exact ⟨en, List.mem_of_find?_eq_some hf, by simpa using h⟩

theorem ne_slash_token (t s : String) (n : Nat) (ht : '/' ∉ t.data) :
    t ≠ s ++ "/" ++ Nat.repr n := by
  intro h
  apply ht
  rw [h]
  have h2 : ("/" : String).data = ['/'] := rfl
  simp [String.data_append, h2]

theorem ruleTokens_icmp_no_ports (sps spe dps dpe : Nat) (sip : String) (spfx : Nat)
    (dip : String) (dpfx : Nat) (ing eg st : String)
    (hing : ing ≠ "--sport" ∧ ing ≠ "--dport")
    (heg : eg ≠ "--sport" ∧ eg ≠ "--dport")
    (hst : st = "NEW,ESTABLISHED" ∨ st = "ESTABLISHED") :
    "--sport" ∉ ruleTokens "icmp" sps spe dps dpe sip spfx dip dpfx ing eg st ∧
    "--dport" ∉ ruleTokens "icmp" sps spe dps dpe sip spfx dip dpfx ing eg st := by
  rcases hst with rfl | rfl <;>
  · constructor <;>
    · intro hmem
      rw [ruleTokens, if_pos rfl] at hmem
      simp [stateClause, Ne.symm hing.1, Ne.symm hing.2, Ne.symm heg.1, Ne.symm heg.2,
        ne_slash_token "--sport" sip spfx (by decide),
        ne_slash_token "--sport" dip dpfx (by decide),
        ne_slash_token "--dport" sip spfx (by decide),
        ne_slash_token "--dport" dip dpfx (by decide)] at hmem

theorem ruleTokens_has_ports (protocol : String) (sps spe dps dpe : Nat) (sip : String)
    (spfx : Nat) (dip : String) (dpfx : Nat) (ing eg st : String) (h : protocol ≠ "icmp") :
    ∃ l1 l2, ruleTokens protocol sps spe dps dpe sip spfx dip dpfx ing eg st =
      l1 ++ "--sport" :: (Nat.repr sps ++ ":" ++ Nat.repr spe) ::
        "--dport" :: (Nat.repr dps ++ ":" ++ Nat.repr dpe) :: l2 := by
  refine ⟨["-A", "FORWARD", "-p", protocol],
    ["-s", sip ++ "/" ++ Nat.repr spfx, "-d", dip ++ "/" ++ Nat.repr dpfx,
     "-i", ing, "-o", eg] ++ stateClause st, ?_⟩
  rw [ruleTokens, if_neg h]
  rfl

theorem iface_val_clean (nd : NetworkDesc) {rn s : String} {pr : String × String}
    (h : lookupIface (generate_network_graph nd) rn s = some pr)
    (hif : ∀ l ∈ nd.links, l.interfaceId ≠ "--sport" ∧ l.interfaceId ≠ "--dport") :
    pr.1 ≠ "--sport" ∧ pr.1 ≠ "--dport" := by
  obtain ⟨en, hen, hval⟩ := lookupIface_mem h
  obtain ⟨l, hl, hshape⟩ := gng_iface_shape nd en hen
  have hpr : pr.1 = l.interfaceId := by rw [← hval, hshape]
  rw [hpr]
  exact hif l hl

/-- **C3**: for every bidirectional communication and every router entry of
the generated rules dict, the entry is a two-element list `[forward,
reverse]`; the forward rule's `--state` clause carries `NEW,ESTABLISHED`,
the reverse rule's carries `ESTABLISHED` for tcp/udp and `NEW,ESTABLISHED`
for icmp (each rule is the rendering of a token list that ends with
`-m state --state {state} -j ACCEPT`). -/
theorem c3_state_match (g : Graph) (c : Communication) (m : List (String × List String))
    (h : generate_filter_rule g c = .ok m) (hdir : c.direction = "bidirectional") :
    ∀ p ∈ m, ∃ f r, p.2 = [f, r] ∧
      (∃ pre, f = renderTokens (pre ++ stateClause "NEW,ESTABLISHED")) ∧
      ((c.protocol = "tcp" ∨ c.protocol = "udp") →
        ∃ pre, r = renderTokens (pre ++ stateClause "ESTABLISHED")) ∧
      (c.protocol = "icmp" →
        ∃ pre, r = renderTokens (pre ++ stateClause "NEW,ESTABLISHED")) := by
  intro p hp
  obtain ⟨path, _, _, hent⟩ := generate_filter_rule_ok h
  obtain ⟨_, hE⟩ := hent p hp
  unfold hopEntry at hE
  obtain ⟨src, dst, ingress, egress, _, _, _, _, hrules⟩ := hE
  rw [if_pos hdir] at hrules
  refine ⟨_, _, hrules, ?_, ?_, ?_⟩
  · obtain ⟨pre, hpre⟩ := ruleTokens_split c.protocol
      c.sourcePortStart c.sourcePortEnd c.targetPortStart c.targetPortEnd
      src.1 src.2 dst.1 dst.2 ingress.1 egress.1 "NEW,ESTABLISHED"
    exact ⟨pre, by rw [generate_rule_string, hpre]⟩
  · intro htu
    have hni : c.protocol ≠ "icmp" := by
      rcases htu with h' | h' <;> rw [h'] <;> decide
    rw [if_neg hni]
    obtain ⟨pre, hpre⟩ := ruleTokens_split c.protocol
      c.targetPortStart c.targetPortEnd c.sourcePortStart c.sourcePortEnd
      dst.1 dst.2 src.1 src.2 egress.1 ingress.1 "ESTABLISHED"
    exact ⟨pre, by rw [generate_rule_string, hpre]⟩
  · intro hicmp
    rw [if_pos hicmp]
    obtain ⟨pre, hpre⟩ := ruleTokens_split c.protocol
      c.targetPortStart c.targetPortEnd c.sourcePortStart c.sourcePortEnd
      dst.1 dst.2 src.1 src.2 egress.1 ingress.1 "NEW,ESTABLISHED"
    exact ⟨pre, by rw [generate_rule_string, hpre]⟩

/-- C3 instantiated on the concrete topology with the bidirectional tcp
communication s10 → s30, at router 1's entry (forward then reverse). -/
theorem c3_state_match_witness :
    ∃ f r,
      (("r1",
        [generate_rule_string "tcp" 1 65535 80 80 "10.0.0.0" 24 "10.0.2.0" 24
           "eth0" "eth1" "NEW,ESTABLISHED",
         generate_rule_string "tcp" 80 80 1 65535 "10.0.2.0" 24 "10.0.0.0" 24
           "eth1" "eth0" "ESTABLISHED"]) : String × List String).2 = [f, r] ∧
      (∃ pre, f = renderTokens (pre ++ stateClause "NEW,ESTABLISHED")) ∧
      ((exCommBidi.protocol = "tcp" ∨ exCommBidi.protocol = "udp") →
        ∃ pre, r = renderTokens (pre ++ stateClause "ESTABLISHED")) ∧
      (exCommBidi.protocol = "icmp" →
        ∃ pre, r = renderTokens (pre ++ stateClause "NEW,ESTABLISHED")) :=
  c3_state_match (generate_network_graph exNd) exCommBidi _ (by rfl) rfl
    ("r1",
      [generate_rule_string "tcp" 1 65535 80 80 "10.0.0.0" 24 "10.0.2.0" 24
         "eth0" "eth1" "NEW,ESTABLISHED",
       generate_rule_string "tcp" 80 80 1 65535 "10.0.2.0" 24 "10.0.0.0" 24
         "eth1" "eth0" "ESTABLISHED"]) (by decide)

/-- **C4**: the routers receiving rules for a communication are exactly the
routers on the resolved path, in path order; a unidirectional communication
puts exactly one rule on each of them — the forward rule with the
source→target orientation and state `NEW,ESTABLISHED`, and no reverse rule
(total = number of routers on the path) — while a bidirectional one puts
exactly two: the forward rule immediately followed by the reverse rule with
networks, ports and interfaces swapped. -/
theorem c4_rule_counts (g : Graph) (c : Communication) (m : List (String × List String))
    (path : List String)
    (h : generate_filter_rule g c = .ok m)
    (hsp : shortest_path g (sId2sName c.sourceSubnetId) (sId2sName c.targetSubnetId) =
      .ok path) :
    dictKeys m = (path.filter fun n => isRouterName n) ∧
    (c.direction = "unidirectional" →
      (∀ p ∈ m, ∃ (src dst : String × Nat) (ingress egress : String × String),
        p.2 = [generate_rule_string c.protocol c.sourcePortStart c.sourcePortEnd
                 c.targetPortStart c.targetPortEnd src.1 src.2 dst.1 dst.2
                 ingress.1 egress.1 "NEW,ESTABLISHED"]) ∧
      (∀ p ∈ m, p.2.length = 1) ∧
      (m.map fun p => p.2.length).sum = (path.filter fun n => isRouterName n).length) ∧
    (c.direction = "bidirectional" →
      ∀ p ∈ m, p.2.length = 2 ∧
        ∃ (src dst : String × Nat) (ingress egress : String × String),
          p.2 = [generate_rule_string c.protocol c.sourcePortStart c.sourcePortEnd
                   c.targetPortStart c.targetPortEnd src.1 src.2 dst.1 dst.2
                   ingress.1 egress.1 "NEW,ESTABLISHED",
                 generate_rule_string c.protocol c.targetPortStart c.targetPortEnd
                   c.sourcePortStart c.sourcePortEnd dst.1 dst.2 src.1 src.2
                   egress.1 ingress.1
                   (if c.protocol = "icmp" then "NEW,ESTABLISHED" else "ESTABLISHED")]) := by
  obtain ⟨path', hsp', hkeys, hent⟩ := generate_filter_rule_ok h
  rw [hsp] at hsp'
  obtain rfl : path = path' := Except.ok.inj hsp'
  refine ⟨hkeys, ?_, ?_⟩
  · intro hdir
    have hne : c.direction ≠ "bidirectional" := by rw [hdir]; decide
    have hfwd : ∀ p ∈ m, ∃ (src dst : String × Nat) (ingress egress : String × String),
        p.2 = [generate_rule_string c.protocol c.sourcePortStart c.sourcePortEnd
                 c.targetPortStart c.targetPortEnd src.1 src.2 dst.1 dst.2
                 ingress.1 egress.1 "NEW,ESTABLISHED"] := by
      intro p hp
      obtain ⟨_, hE⟩ := hent p hp
      unfold hopEntry at hE
      obtain ⟨src, dst, ingress, egress, _, _, _, _, hrules⟩ := hE
      rw [if_neg hne] at hrules
      exact ⟨src, dst, ingress, egress, hrules⟩
    have hlen1 : ∀ p ∈ m, p.2.length = 1 := by
      intro p hp
      obtain ⟨src, dst, ingress, egress, hrules⟩ := hfwd p hp
      rw [hrules]
      rfl
    refine ⟨hfwd, hlen1, ?_⟩
    have hsum : ∀ (ms : List (String × List String)),
        (∀ p ∈ ms, p.2.length = 1) → (ms.map fun p => p.2.length).sum = ms.length := by
      intro ms
      induction ms with
      | nil => intro _; rfl
      | cons q qs ihq =>
        intro hq
        simp only [List.map_cons, List.sum_cons, List.length_cons,
          hq q (List.mem_cons_self q qs),
          ihq fun p hp => hq p (List.mem_cons_of_mem q hp)]
        omega
    rw [hsum m hlen1, ← hkeys]
    simp [dictKeys]
  · intro hdir p hp
    obtain ⟨_, hE⟩ := hent p hp
    unfold hopEntry at hE
    obtain ⟨src, dst, ingress, egress, _, _, _, _, hrules⟩ := hE
    rw [if_pos hdir] at hrules
    exact ⟨by rw [hrules]; rfl, src, dst, ingress, egress, hrules⟩

/-- C4 instantiated on the concrete topology with the unidirectional tcp
communication s10 → s20 (path `s10 r1 s20`, one rule on router 1). -/
theorem c4_rule_counts_witness :
    dictKeys [("r1",
        [generate_rule_string "tcp" 1 65535 80 80 "10.0.0.0" 24 "10.0.1.0" 24
           "eth0" "eth1" "NEW,ESTABLISHED"])] =
      ((["s10", "r1", "s20"] : List String).filter fun n => isRouterName n) ∧
    (exCommUni.direction = "unidirectional" →
      (∀ p ∈ ([("r1",
          [generate_rule_string "tcp" 1 65535 80 80 "10.0.0.0" 24 "10.0.1.0" 24
             "eth0" "eth1" "NEW,ESTABLISHED"])] : List (String × List String)),
        ∃ (src dst : String × Nat) (ingress egress : String × String),
          p.2 = [generate_rule_string exCommUni.protocol exCommUni.sourcePortStart
                   exCommUni.sourcePortEnd exCommUni.targetPortStart exCommUni.targetPortEnd
                   src.1 src.2 dst.1 dst.2 ingress.1 egress.1 "NEW,ESTABLISHED"]) ∧
      (∀ p ∈ ([("r1",
          [generate_rule_string "tcp" 1 65535 80 80 "10.0.0.0" 24 "10.0.1.0" 24
             "eth0" "eth1" "NEW,ESTABLISHED"])] : List (String × List String)),
        p.2.length = 1) ∧
      (([("r1",
          [generate_rule_string "tcp" 1 65535 80 80 "10.0.0.0" 24 "10.0.1.0" 24
             "eth0" "eth1" "NEW,ESTABLISHED"])] : List (String × List String)).map
        fun p => p.2.length).sum =
          ((["s10", "r1", "s20"] : List String).filter fun n => isRouterName n).length) ∧
    (exCommUni.direction = "bidirectional" →
      ∀ p ∈ ([("r1",
          [generate_rule_string "tcp" 1 65535 80 80 "10.0.0.0" 24 "10.0.1.0" 24
             "eth0" "eth1" "NEW,ESTABLISHED"])] : List (String × List String)),
        p.2.length = 2 ∧
        ∃ (src dst : String × Nat) (ingress egress : String × String),
          p.2 = [generate_rule_string exCommUni.protocol exCommUni.sourcePortStart
                   exCommUni.sourcePortEnd exCommUni.targetPortStart exCommUni.targetPortEnd
                   src.1 src.2 dst.1 dst.2 ingress.1 egress.1 "NEW,ESTABLISHED",
                 generate_rule_string exCommUni.protocol exCommUni.targetPortStart
                   exCommUni.targetPortEnd exCommUni.sourcePortStart exCommUni.sourcePortEnd
                   dst.1 dst.2 src.1 src.2 egress.1 ingress.1
                   (if exCommUni.protocol = "icmp" then "NEW,ESTABLISHED"
                    else "ESTABLISHED")]) :=
  c4_rule_counts (generate_network_graph exNd) exCommUni _ ["s10", "r1", "s20"]
    (by rfl) (by rfl)

/-- **C5**: every generated rule (forward or reverse) is the rendering of
the canonical token list `ruleTokens` of its parameters; when the
communication's protocol is icmp that token list contains neither a
`--sport` nor a `--dport` token, and when it is tcp/udp it contains both,
each immediately followed by its port range.  The interface fields cannot
fake a port token provided no declared link uses the literal interface id
`--sport`/`--dport`. -/
theorem c5_port_clauses (nd : NetworkDesc) (c : Communication)
    (m : List (String × List String))
    (h : generate_filter_rule (generate_network_graph nd) c = .ok m)
    (hif : ∀ l ∈ nd.links, l.interfaceId ≠ "--sport" ∧ l.interfaceId ≠ "--dport") :
    ∀ p ∈ m, ∀ rule ∈ p.2,
      ∃ (sps spe dps dpe : Nat) (sip : String) (spfx : Nat) (dip : String) (dpfx : Nat)
        (ing eg st : String),
        rule = generate_rule_string c.protocol sps spe dps dpe sip spfx dip dpfx ing eg st ∧
        rule = renderTokens (ruleTokens c.protocol sps spe dps dpe sip spfx dip dpfx ing eg st) ∧
        (c.protocol = "icmp" →
          "--sport" ∉ ruleTokens c.protocol sps spe dps dpe sip spfx dip dpfx ing eg st ∧
          "--dport" ∉ ruleTokens c.protocol sps spe dps dpe sip spfx dip dpfx ing eg st) ∧
        (c.protocol ≠ "icmp" →
          ∃ l1 l2, ruleTokens c.protocol sps spe dps dpe sip spfx dip dpfx ing eg st =
            l1 ++ "--sport" :: (Nat.repr sps ++ ":" ++ Nat.repr spe) ::
              "--dport" :: (Nat.repr dps ++ ":" ++ Nat.repr dpe) :: l2) := by
  intro p hp rule hrule
  obtain ⟨path, _, _, hent⟩ := generate_filter_rule_ok h
  obtain ⟨_, hE⟩ := hent p hp
  unfold hopEntry at hE
  obtain ⟨src, dst, ingress, egress, _, _, ⟨lastHop, hi⟩, ⟨nextHop, he⟩, hrules⟩ := hE
  have hing := iface_val_clean nd hi hif
  have heg := iface_val_clean nd he hif
  rw [hrules] at hrule
  by_cases hb : c.direction = "bidirectional"
  · rw [if_pos hb] at hrule
    rcases (by simpa using hrule :
        rule = generate_rule_string c.protocol c.sourcePortStart c.sourcePortEnd
          c.targetPortStart c.targetPortEnd src.1 src.2 dst.1 dst.2
          ingress.1 egress.1 "NEW,ESTABLISHED" ∨
        rule = generate_rule_string c.protocol c.targetPortStart c.targetPortEnd
          c.sourcePortStart c.sourcePortEnd dst.1 dst.2 src.1 src.2
          egress.1 ingress.1
          (if c.protocol = "icmp" then "NEW,ESTABLISHED" else "ESTABLISHED")) with rfl | rfl
    · refine ⟨c.sourcePortStart, c.sourcePortEnd, c.targetPortStart, c.targetPortEnd,
        src.1, src.2, dst.1, dst.2, ingress.1, egress.1, "NEW,ESTABLISHED",
        rfl, rfl, ?_, ?_⟩
      · intro hicmp
        rw [hicmp]
        exact ruleTokens_icmp_no_ports _ _ _ _ _ _ _ _ _ _ _ hing heg (Or.inl rfl)
      · intro hni
        exact ruleTokens_has_ports c.protocol _ _ _ _ _ _ _ _ _ _ _ hni
    · refine ⟨c.targetPortStart, c.targetPortEnd, c.sourcePortStart, c.sourcePortEnd,
        dst.1, dst.2, src.1, src.2, egress.1, ingress.1,
        (if c.protocol = "icmp" then "NEW,ESTABLISHED" else "ESTABLISHED"),
        rfl, rfl, ?_, ?_⟩
      · intro hicmp
        rw [hicmp]
        exact ruleTokens_icmp_no_ports _ _ _ _ _ _ _ _ _ _ _ heg hing
          (Or.inl (if_pos rfl))
      · intro hni
        exact ruleTokens_has_ports c.protocol _ _ _ _ _ _ _ _ _ _ _ hni
  · rw [if_neg hb] at hrule
    have hrule' : rule = generate_rule_string c.protocol c.sourcePortStart c.sourcePortEnd
        c.targetPortStart c.targetPortEnd src.1 src.2 dst.1 dst.2
        ingress.1 egress.1 "NEW,ESTABLISHED" := by simpa using hrule
    subst hrule'
    refine ⟨c.sourcePortStart, c.sourcePortEnd, c.targetPortStart, c.targetPortEnd,
      src.1, src.2, dst.1, dst.2, ingress.1, egress.1, "NEW,ESTABLISHED",
      rfl, rfl, ?_, ?_⟩
    · intro hicmp
      rw [hicmp]
      exact ruleTokens_icmp_no_ports _ _ _ _ _ _ _ _ _ _ _ hing heg (Or.inl rfl)
    · intro hni
      exact ruleTokens_has_ports c.protocol _ _ _ _ _ _ _ _ _ _ _ hni

/-- C5 instantiated on the concrete topology with the bidirectional icmp
communication s10 → s20, at router 1's forward rule. -/
theorem c5_port_clauses_witness :
    ∃ (sps spe dps dpe : Nat) (sip : String) (spfx : Nat) (dip : String) (dpfx : Nat)
      (ing eg st : String),
      generate_rule_string "icmp" 0 0 0 0 "10.0.0.0" 24 "10.0.1.0" 24
          "eth0" "eth1" "NEW,ESTABLISHED" =
        generate_rule_string exCommIcmp.protocol sps spe dps dpe
          sip spfx dip dpfx ing eg st ∧
      generate_rule_string "icmp" 0 0 0 0 "10.0.0.0" 24 "10.0.1.0" 24
          "eth0" "eth1" "NEW,ESTABLISHED" =
        renderTokens (ruleTokens exCommIcmp.protocol sps spe dps dpe
          sip spfx dip dpfx ing eg st) ∧
      (exCommIcmp.protocol = "icmp" →
        "--sport" ∉ ruleTokens exCommIcmp.protocol sps spe dps dpe
          sip spfx dip dpfx ing eg st ∧
        "--dport" ∉ ruleTokens exCommIcmp.protocol sps spe dps dpe
          sip spfx dip dpfx ing eg st) ∧
      (exCommIcmp.protocol ≠ "icmp" →
        ∃ l1 l2, ruleTokens exCommIcmp.protocol sps spe dps dpe
            sip spfx dip dpfx ing eg st =
          l1 ++ "--sport" :: (Nat.repr sps ++ ":" ++ Nat.repr spe) ::
            "--dport" :: (Nat.repr dps ++ ":" ++ Nat.repr dpe) :: l2) :=
  c5_port_clauses exNd exCommIcmp _ (by rfl) (by decide)
    ("r1",
      [generate_rule_string "icmp" 0 0 0 0 "10.0.0.0" 24 "10.0.1.0" 24
         "eth0" "eth1" "NEW,ESTABLISHED",
       generate_rule_string "icmp" 0 0 0 0 "10.0.1.0" 24 "10.0.0.0" 24
         "eth1" "eth0" "NEW,ESTABLISHED"]) (by decide)
    (generate_rule_string "icmp" 0 0 0 0 "10.0.0.0" 24 "10.0.1.0" 24
       "eth0" "eth1" "NEW,ESTABLISHED") (by decide)

/-- **C7**: a communication whose source and target subnet ids coincide
(and name a node of the graph) resolves to the one-element path holding
just that subnet node; the path contains no router and
`generate_filter_rule` returns the empty rules dict without an error. -/
theorem c7_identity_path (g : Graph) (c : Communication)
    (heq : c.sourceSubnetId = c.targetSubnetId)
    (hmem : sId2sName c.sourceSubnetId ∈ g.nodes) :
    shortest_path g (sId2sName c.sourceSubnetId) (sId2sName c.targetSubnetId) =
      .ok [sId2sName c.sourceSubnetId] ∧
    ([sId2sName c.sourceSubnetId].filter fun n => isRouterName n) = [] ∧
    generate_filter_rule g c = .ok [] := by
  have hsp : shortest_path g (sId2sName c.sourceSubnetId) (sId2sName c.targetSubnetId) =
      .ok [sId2sName c.sourceSubnetId] := by
    rw [← heq]
    exact shortest_path_self g _ hmem
  refine ⟨hsp, by simp [isRouterName_sId], ?_⟩
  unfold generate_filter_rule
  rw [hsp]
  simp [genHops, isRouterName_sId]

/-- C7 instantiated on the concrete topology with the self-loop
communication s10 → s10. -/
theorem c7_identity_path_witness :
    shortest_path (generate_network_graph exNd) (sId2sName exCommSelf.sourceSubnetId)
      (sId2sName exCommSelf.targetSubnetId) = .ok [sId2sName exCommSelf.sourceSubnetId] ∧
    ([sId2sName exCommSelf.sourceSubnetId].filter fun n => isRouterName n) = [] ∧
    generate_filter_rule (generate_network_graph exNd) exCommSelf = .ok [] :=
  c7_identity_path (generate_network_graph exNd) exCommSelf rfl (by decide)

/-- C1 counterexample: the topology `danglingNd` declares only router 1,
but its single link references router id 5.  Graph construction completes —
no exception path exists in the source — and `add_edge` silently absorbs
the dangling reference by creating a fresh node `r5` and the edge
`(r5, s1)`, refuting the claim that construction fails fast. -/
theorem c1_counterexample :
    (generate_network_graph danglingNd).nodes = ["r1", "s1", "r5"] ∧
    (generate_network_graph danglingNd).edges = [("r5", "s1")] ∧
    (∀ r ∈ danglingNd.routers, rId2rName r.id ≠ "r5") := by
  refine ⟨rfl, rfl, ?_⟩
  decide

/-- **C1 (amended)**: graph construction never fails.  Every link of the
description — including one whose `routerId` or `subnetId` is undeclared —
ends up in the graph: both endpoint nodes exist (`add_edge` creates missing
ones) and the edge between them is present. -/
theorem c1_dangling_absorbed (nd : NetworkDesc) :
    ∀ l ∈ nd.links,
      rId2rName l.routerId ∈ (generate_network_graph nd).nodes ∧
      sId2sName l.subnetId ∈ (generate_network_graph nd).nodes ∧
      adjB (generate_network_graph nd).edges
        (rId2rName l.routerId) (sId2sName l.subnetId) = true := by
  intro l hl
  rw [gng_eq]
  exact foldl_linkStep_link_present nd.links _ l hl

/-- C1 (amended) instantiated on the dangling-link topology. -/
theorem c1_dangling_absorbed_witness :
    rId2rName (5 : Nat) ∈ (generate_network_graph danglingNd).nodes ∧
    sId2sName (1 : Nat) ∈ (generate_network_graph danglingNd).nodes ∧
    adjB (generate_network_graph danglingNd).edges
      (rId2rName (5 : Nat)) (sId2sName (1 : Nat)) = true :=
  c1_dangling_absorbed danglingNd ⟨5, 1, "eth0", "10.0.0.1"⟩ (by decide)

/-- C2 counterexample: at concrete arguments the rule string produced by
`generate_rule_string` is not the exact §6 grammar line — the source
template terminates every field with a space, so the rule carries a
trailing space character. -/
theorem c2_counterexample :
    generate_rule_string "tcp" 1 65535 80 80 "10.0.0.0" 24 "10.0.1.0" 24
      "eth0" "eth1" "NEW,ESTABLISHED" ≠
    specRuleLine "tcp" 1 65535 80 80 "10.0.0.0" 24 "10.0.1.0" 24
      "eth0" "eth1" "NEW,ESTABLISHED" := by
  decide

/-- **C2 (amended)**: the serialized artifact is the §6 layout — each
table's name line, its rules in recorded order, a blank line and `COMMIT`,
tables separated by blank lines — followed by one extra trailing newline
(the writer emits `'\nCOMMIT\n\n'` after every table, the last included);
and every rule line is exactly the §6 grammar line followed by a single
trailing space. -/
theorem c2_amended_serialization :
    (∀ (t : String × List String) (ts : List (String × List String)),
      write_filter_rules_content (t :: ts) = specArtifact (t :: ts) ++ "\n") ∧
    (∀ (protocol : String) (sps spe dps dpe : Nat) (sip : String) (spfx : Nat)
       (dip : String) (dpfx : Nat) (ing eg st : String),
      generate_rule_string protocol sps spe dps dpe sip spfx dip dpfx ing eg st =
        specRuleLine protocol sps spe dps dpe sip spfx dip dpfx ing eg st ++ " ") :=
  ⟨write_content_eq_specArtifact, generate_rule_string_eq_specRuleLine⟩

/-- **C8**: a communication between two distinct subnets with no connecting
path in the graph makes `generate_filter_rule` raise (`nx.shortest_path`
raises `NetworkXNoPath`, or `NodeNotFound` when an endpoint is not even a
node); no rules dict is produced. -/
theorem c8_unreachable_raises (g : Graph) (c : Communication)
    (_hne : c.sourceSubnetId ≠ c.targetSubnetId)
    (hnopath : ¬∃ p, validPath g.edges (sId2sName c.sourceSubnetId)
      (sId2sName c.targetSubnetId) p) :
    ∃ e, generate_filter_rule g c = .error e := by
  unfold generate_filter_rule
  cases hsp : shortest_path g (sId2sName c.sourceSubnetId) (sId2sName c.targetSubnetId) with
  | error e => exact ⟨e, rfl⟩
  | ok path =>
    exfalso
    obtain ⟨hh, hl, hc, _⟩ := shortest_path_sound hsp
    exact hnopath ⟨path, hh, hl, hc⟩

/-- C8 instantiated on the disconnected topology (two subnets, no links). -/
theorem c8_unreachable_raises_witness :
    ∃ e, generate_filter_rule (generate_network_graph discNd) discComm = .error e := by
  refine c8_unreachable_raises (generate_network_graph discNd) discComm (by decide) ?_
  rintro ⟨p, hh, hl, hc⟩
  have hE : (generate_network_graph discNd).edges = [] := rfl
  rw [hE] at hc
  cases p with
  | nil => simp at hh
  | cons a t =>
    cases t with
    | nil =>
      have h1 : a = sId2sName discComm.sourceSubnetId := by simpa using hh
      have h2 : a = sId2sName discComm.targetSubnetId := by simpa using hl
      rw [h1] at h2
      exact absurd h2 (by decide)
    | cons b t' =>
      rw [show chainB [] (a :: b :: t') = (adjB [] a b && chainB [] (b :: t')) from rfl] at hc
      simp [adjB] at hc

/-! ### The rule-set accumulator -/

theorem foldl_init_preserve :
    ∀ (rs : List Router) (d : List (String × List (String × List String))) (k : String),
      dictGet d k = some initRouterTables →
      dictGet (rs.foldl (fun d r => dictSet d (rId2rName r.id) initRouterTables) d) k =
        some initRouterTables := by
  intro rs
  induction rs with
  | nil => intro d k h; exact h
  | cons r' rs ih =>
    intro d k h
    rw [List.foldl_cons]
    refine ih _ _ ?_
    by_cases hk : k = rId2rName r'.id
    · subst hk
      rw [dictGet_dictSet_self]
    · rw [dictGet_dictSet_ne _ _ _ _ hk]
      exact h

theorem init_rules_get (nd : NetworkDesc) (r : Router) (hr : r ∈ nd.routers) :
    dictGet (init_rules nd) (rId2rName r.id) = some initRouterTables := by
  unfold init_rules
  have hgen : ∀ (rs : List Router) (d : List (String × List (String × List String))),
      r ∈ rs →
      dictGet (rs.foldl (fun d r => dictSet d (rId2rName r.id) initRouterTables) d)
        (rId2rName r.id) = some initRouterTables := by
    intro rs
    induction rs with
    | nil => intro d h; simp at h
    | cons r' rs ih =>
      intro d h
      rcases List.mem_cons.mp h with rfl | h
      · rw [List.foldl_cons]
        exact foldl_init_preserve rs _ _ (dictGet_dictSet_self _ _ _)
      · rw [List.foldl_cons]
        exact ih _ h
  exact hgen nd.routers [] hr

theorem init_rules_P (nd : NetworkDesc) :
    ∀ rn tabs, dictGet (init_rules nd) rn = some tabs →
      dictGet tabs "* nat" = some natInitRules ∧
      ∃ rest, dictGet tabs "* filter" = some (filterInitRules ++ rest) := by
  unfold init_rules
  have hgen : ∀ (rs : List Router) (d : List (String × List (String × List String))),
      (∀ rn tabs, dictGet d rn = some tabs →
        dictGet tabs "* nat" = some natInitRules ∧
        ∃ rest, dictGet tabs "* filter" = some (filterInitRules ++ rest)) →
      ∀ rn tabs,
        dictGet (rs.foldl (fun d r => dictSet d (rId2rName r.id) initRouterTables) d) rn =
          some tabs →
        dictGet tabs "* nat" = some natInitRules ∧
        ∃ rest, dictGet tabs "* filter" = some (filterInitRules ++ rest) := by
    intro rs
    induction rs with
    | nil => intro d hd; exact hd
    | cons r' rs ih =>
      intro d hd
      rw [List.foldl_cons]
      refine ih _ ?_
      intro rn tabs hget
      by_cases hk : rn = rId2rName r'.id
      · subst hk
        rw [dictGet_dictSet_self] at hget
        obtain rfl : initRouterTables = tabs := by simpa using hget
        exact ⟨rfl, [], by simp [initRouterTables, dictGet]⟩
      · rw [dictGet_dictSet_ne _ _ _ _ hk] at hget
        exact hd rn tabs hget
  exact hgen nd.routers [] (by intro rn tabs h; simp [dictGet] at h)

theorem appendRouterRules_spec
    {st st' : List (String × List (String × List String))} {rn : String}
    {rules : List String} (h : appendRouterRules st rn rules = .ok st') :
    ((∀ rn' tabs, dictGet st rn' = some tabs →
        dictGet tabs "* nat" = some natInitRules ∧
        ∃ rest, dictGet tabs "* filter" = some (filterInitRules ++ rest)) →
      ∀ rn' tabs, dictGet st' rn' = some tabs →
        dictGet tabs "* nat" = some natInitRules ∧
        ∃ rest, dictGet tabs "* filter" = some (filterInitRules ++ rest)) ∧
    (∀ rn', (dictGet st rn').isSome = true → (dictGet st' rn').isSome = true) ∧
    (∀ rn', rn' ≠ rn → dictGet st' rn' = dictGet st rn') := by
  unfold appendRouterRules at h
  split at h
  · exact absurd h (by simp)
  next tabs hg =>
  split at h
  · exact absurd h (by simp)
  next cur hf =>
  obtain rfl : dictSet st rn (dictSet tabs "* filter" (cur ++ rules)) = st' :=
    Except.ok.inj h
  refine ⟨?_, ?_, ?_⟩
  · intro hP rn' tabs' hget
    by_cases hrn : rn' = rn
    · subst hrn
      rw [dictGet_dictSet_self] at hget
      obtain rfl : dictSet tabs "* filter" (cur ++ rules) = tabs' := by
        simpa using hget
      obtain ⟨hnat, rest, hfil⟩ := hP rn' tabs hg
      have hcur : cur = filterInitRules ++ rest := by
        rw [hf] at hfil
        simpa using hfil
      refine ⟨?_, rest ++ rules, ?_⟩
      · rw [dictGet_dictSet_ne _ _ _ _ (by decide)]
        exact hnat
      · rw [dictGet_dictSet_self, hcur, List.append_assoc]
    · rw [dictGet_dictSet_ne _ _ _ _ hrn] at hget
      exact hP rn' tabs' hget
  · intro rn' hsome
    by_cases hrn : rn' = rn
    · subst hrn
      rw [dictGet_dictSet_self]
      rfl
    · rw [dictGet_dictSet_ne _ _ _ _ hrn]
      exact hsome
  · intro rn' hrn
    rw [dictGet_dictSet_ne _ _ _ _ hrn]

theorem dictGet_none_keys {α : Type} {d : List (String × α)} {k : String}
    (h : dictGet d k = none) : ∀ q ∈ d, q.1 ≠ k := by
  intro q hq heq
  exact (dictGet_eq_none_iff d k).mp h (heq ▸ List.mem_map_of_mem (·.1) hq)

theorem applyCommRules_spec :
    ∀ (ms : List (String × List String))
      (st st' : List (String × List (String × List String))),
      applyCommRules st ms = .ok st' →
      ((∀ rn' tabs, dictGet st rn' = some tabs →
          dictGet tabs "* nat" = some natInitRules ∧
          ∃ rest, dictGet tabs "* filter" = some (filterInitRules ++ rest)) →
        ∀ rn' tabs, dictGet st' rn' = some tabs →
          dictGet tabs "* nat" = some natInitRules ∧
          ∃ rest, dictGet tabs "* filter" = some (filterInitRules ++ rest)) ∧
      (∀ rn', (dictGet st rn').isSome = true → (dictGet st' rn').isSome = true) ∧
      (∀ rn', (∀ q ∈ ms, q.1 ≠ rn') → dictGet st' rn' = dictGet st rn') := by
  intro ms
  induction ms with
  | nil =>
    intro st st' h
    obtain rfl : st = st' := by simpa [applyCommRules] using h
    exact ⟨fun hP => hP, fun _ h' => h', fun _ _ => rfl⟩
  | cons q ms ih =>
    intro st st' h
    obtain ⟨rn, rules⟩ := q
    rw [applyCommRules] at h
    cases ha : appendRouterRules st rn rules with
    | error e => rw [ha] at h; simp at h
    | ok st1 =>
      rw [ha] at h
      obtain ⟨hstep_P, hstep_dom, hstep_frame⟩ := appendRouterRules_spec ha
      obtain ⟨hrest_P, hrest_dom, hrest_frame⟩ := ih st1 st' h
      refine ⟨fun hP => hrest_P (hstep_P hP), fun rn' h' => hrest_dom rn' (hstep_dom rn' h'), ?_⟩
      intro rn' hq
      rw [hrest_frame rn' fun q' hq' => hq q' (List.mem_cons_of_mem _ hq'),
        hstep_frame rn' (Ne.symm (hq (rn, rules) (List.mem_cons_self _ _)))]

theorem create_filter_rules_spec :
    ∀ (cs : List Communication) (g : Graph)
      (st st' : List (String × List (String × List String))),
      create_filter_rules g cs st = .ok st' →
      ((∀ rn' tabs, dictGet st rn' = some tabs →
          dictGet tabs "* nat" = some natInitRules ∧
          ∃ rest, dictGet tabs "* filter" = some (filterInitRules ++ rest)) →
        ∀ rn' tabs, dictGet st' rn' = some tabs →
          dictGet tabs "* nat" = some natInitRules ∧
          ∃ rest, dictGet tabs "* filter" = some (filterInitRules ++ rest)) ∧
      (∀ rn', (dictGet st rn').isSome = true → (dictGet st' rn').isSome = true) ∧
      (∀ rn',
        (∀ c ∈ cs, ∀ mr, generate_filter_rule g c = .ok mr → dictGet mr rn' = none) →
        dictGet st' rn' = dictGet st rn') := by
  intro cs
  induction cs with
  | nil =>
    intro g st st' h
    obtain rfl : st = st' := by simpa [create_filter_rules] using h
    exact ⟨fun hP => hP, fun _ h' => h', fun _ _ => rfl⟩
  | cons c cs ih =>
    intro g st st' h
    rw [create_filter_rules] at h
    split at h
    · exact absurd h (by simp)
    next m hm =>
    split at h
    · exact absurd h (by simp)
    next st1 ha =>
    obtain ⟨hstep_P, hstep_dom, hstep_frame⟩ := applyCommRules_spec m st st1 ha
    obtain ⟨hrest_P, hrest_dom, hrest_frame⟩ := ih g st1 st' h
    refine ⟨fun hP => hrest_P (hstep_P hP),
      fun rn' h' => hrest_dom rn' (hstep_dom rn' h'), ?_⟩
    intro rn' hunt
    rw [hrest_frame rn' fun c' hc' => hunt c' (List.mem_cons_of_mem _ hc'),
      hstep_frame rn'
        (dictGet_none_keys (hunt c (List.mem_cons_self _ _) m hm))]

/-- **C6**: after processing any sequence of communications starting from
the `init_rules` state, every declared router still has its two tables; the
`* nat` table is exactly the three permissive policy lines set at
initialization (never mutated), and the `* filter` table is the three
default-deny `DROP` policy lines followed by whatever rules were appended —
synthesized rules are only ever appended to `* filter`. -/
theorem c6_table_invariants (nd : NetworkDesc) (cs : List Communication)
    (st : List (String × List (String × List String)))
    (h : create_filter_rules (generate_network_graph nd) cs (init_rules nd) = .ok st)
    (r : Router) (hr : r ∈ nd.routers) :
    ∃ tabs, dictGet st (rId2rName r.id) = some tabs ∧
      dictGet tabs "* nat" = some natInitRules ∧
      ∃ rest, dictGet tabs "* filter" = some (filterInitRules ++ rest) := by
  obtain ⟨hP, hdom, _⟩ := create_filter_rules_spec cs _ _ st h
  have hinit := init_rules_get nd r hr
  have hsome : (dictGet st (rId2rName r.id)).isSome = true :=
    hdom _ (by rw [hinit]; rfl)
  obtain ⟨tabs, htabs⟩ := Option.isSome_iff_exists.mp hsome
  exact ⟨tabs, htabs, hP (init_rules_P nd) _ tabs htabs⟩

/-- C6 instantiated on the concrete topology after processing the
unidirectional communication s10 → s20 (router 1, which received a rule). -/
theorem c6_table_invariants_witness :
    ∃ tabs,
      dictGet [("r1",
          [("* nat", natInitRules),
           ("* filter", filterInitRules ++
             [generate_rule_string "tcp" 1 65535 80 80 "10.0.0.0" 24 "10.0.1.0" 24
                "eth0" "eth1" "NEW,ESTABLISHED"])]),
        ("r2", initRouterTables)] (rId2rName (1 : Nat)) = some tabs ∧
      dictGet tabs "* nat" = some natInitRules ∧
      ∃ rest, dictGet tabs "* filter" = some (filterInitRules ++ rest) :=
  c6_table_invariants exNd [exCommUni] _ (by rfl) ⟨1⟩ (by decide)

/-- **C10**: a declared router that lies on the resolved path of none of the
processed communications keeps exactly its initial scaffolding: its entry
after `create_filter_rules` is still the `* nat`/`* filter` policy-line
tables produced by `init_rules`, unchanged in content and order. -/
theorem c10_untouched_router (nd : NetworkDesc) (cs : List Communication)
    (st : List (String × List (String × List String)))
    (h : create_filter_rules (generate_network_graph nd) cs (init_rules nd) = .ok st)
    (r : Router) (hr : r ∈ nd.routers)
    (huntouched : ∀ c ∈ cs, ∀ mr,
      generate_filter_rule (generate_network_graph nd) c = .ok mr →
      dictGet mr (rId2rName r.id) = none) :
    dictGet st (rId2rName r.id) = some initRouterTables := by
  obtain ⟨_, _, hframe⟩ := create_filter_rules_spec cs _ _ st h
  rw [hframe _ huntouched]
  exact init_rules_get nd r hr

/-- C10 instantiated on the concrete topology: router 2 is on no path of
the processed communication s10 → s20 and keeps its initial tables. -/
theorem c10_untouched_router_witness :
    dictGet [("r1",
        [("* nat", natInitRules),
         ("* filter", filterInitRules ++
           [generate_rule_string "tcp" 1 65535 80 80 "10.0.0.0" 24 "10.0.1.0" 24
              "eth0" "eth1" "NEW,ESTABLISHED"])]),
      ("r2", initRouterTables)] (rId2rName (2 : Nat)) = some initRouterTables := by
  refine c10_untouched_router exNd [exCommUni] _ (by rfl) ⟨2⟩ (by decide) ?_
  intro c hc mr hmr
  have hc' : c = exCommUni := by simpa using hc
  subst hc'
  have heval : generate_filter_rule (generate_network_graph exNd) exCommUni =
      .ok [("r1",
        [generate_rule_string "tcp" 1 65535 80 80 "10.0.0.0" 24 "10.0.1.0" 24
           "eth0" "eth1" "NEW,ESTABLISHED"])] := by rfl
  rw [heval] at hmr
  obtain rfl := Except.ok.inj hmr
  rfl
